import Mathlib

/-!
Verification development for the dialogue-engine repository
(lexer / parser / IR compiler / bytecode encoder / virtual machine).

The TypeScript sources are shallowly embedded as executable Lean
definitions.  JavaScript strings manipulated by the virtual machine are
represented as their UTF-8 byte sequences (`Str := List Nat`); the
`DataView` byte buffer is `List Nat`; JavaScript `Map`s are association
lists in insertion order (JS `Map` iterates in insertion order and
`set` on an existing key keeps its position); JavaScript arrays used as
stacks are Lean lists with the TOP of the stack at the HEAD (JS
`push`/`pop` operate on the array end).  JavaScript numbers holding
register values are `Int` (the VM subtracts registers); byte reads out
of the `DataView`'s range, which throw a `RangeError` in JS, are
modelled as `Except.error "RangeError"`.
-/

namespace DialogueEngine

/-- VM string values: UTF-8 byte sequences of JS strings. -/
abbrev Str := List Nat

/-- JS `Map.get`: value of the first (unique) entry with the given key. -/
def alGet [DecidableEq α] (l : List (α × β)) (k : α) : Option β :=
  (l.find? (fun p => decide (p.1 = k))).map (·.2)

/-- JS `Map.set`: replace in place when the key exists, else append
(insertion order preserved). -/
def alSet [DecidableEq α] (l : List (α × β)) (k : α) (v : β) : List (α × β) :=
  if (l.find? (fun p => decide (p.1 = k))).isSome then
    l.map (fun p => if p.1 = k then (k, v) else p)
  else l ++ [(k, v)]

/-! ## Virtual machine (src/vm.ts) -/

/-- The 14 instruction kinds of `IROp` (src `bytecode.ts`). -/
inductive OpName where
  | readStrOp | setCharacterOp | showDialogueOp | evaluateScriptOp
  | concatenateOp | readVariableOp | setVariableNameOp | jumpOp
  | endOfScriptOp | setVariableOp | promptOp | moveRegRegOp
  | subRegRegOp | pickOptionOp
  deriving DecidableEq, Repr

open OpName

/-- `OPCODE_MAP` from src `bytecode.ts`. -/
def OPCODE_MAP : OpName → Nat
  | readStrOp => 0
  | setCharacterOp => 1
  | showDialogueOp => 2
  | evaluateScriptOp => 3
  | concatenateOp => 4
  | readVariableOp => 5
  | setVariableNameOp => 6
  | jumpOp => 7
  | endOfScriptOp => 8
  | setVariableOp => 9
  | promptOp => 10
  | moveRegRegOp => 11
  | subRegRegOp => 12
  | pickOptionOp => 13

/-- `OPCODE_TO_IROp` from src `bytecode.ts` (inverse of `OPCODE_MAP`). -/
def OPCODE_TO_IROp : Nat → Option OpName
  | 0 => some readStrOp
  | 1 => some setCharacterOp
  | 2 => some showDialogueOp
  | 3 => some evaluateScriptOp
  | 4 => some concatenateOp
  | 5 => some readVariableOp
  | 6 => some setVariableNameOp
  | 7 => some jumpOp
  | 8 => some endOfScriptOp
  | 9 => some setVariableOp
  | 10 => some promptOp
  | 11 => some moveRegRegOp
  | 12 => some subRegRegOp
  | 13 => some pickOptionOp
  | _ => none

/-- `VMState` from src/vm.ts.  `regs` is the 5-slot register file
`[PC, SP, CPSR, R0, R1]`. -/
structure VMState where
  stack : List Str
  regs : List Int
  nextVariableId : Nat
  variableFromName : List (Str × Nat)
  variableValues : List (Nat × Str)
  character : Nat
  bc : List Nat
  deriving DecidableEq, Repr

/-- Four little-endian bytes of the buffer combined, `DataView.getUint32`. -/
def byte32 (bc : List Nat) (i : Nat) : Option Nat := do
  let b0 ← bc.get? i
  let b1 ← bc.get? (i + 1)
  let b2 ← bc.get? (i + 2)
  let b3 ← bc.get? (i + 3)
  pure (b0 + 256 * b1 + 65536 * b2 + 16777216 * b3)

/-- `read32` from src/vm.ts: fetch a 32-bit little-endian word at PC and
advance PC by 4. -/
def read32 (s : VMState) : Except String (Nat × VMState) :=
  let pc := s.regs.getD 0 0
  if pc < 0 then .error "RangeError"
  else match byte32 s.bc pc.toNat with
    | none => .error "RangeError"
    | some v => .ok (v, { s with regs := s.regs.set 0 (pc + 4) })

/-- `read8` from src/vm.ts: fetch one byte at PC and advance PC by 1. -/
def read8 (s : VMState) : Except String (Nat × VMState) :=
  let pc := s.regs.getD 0 0
  if pc < 0 then .error "RangeError"
  else match s.bc.get? pc.toNat with
    | none => .error "RangeError"
    | some v => .ok (v, { s with regs := s.regs.set 0 (pc + 1) })

/-- Byte-at-a-time scan of `readStr` over the remaining buffer suffix:
collect bytes until the null terminator, `RangeError` when the scan runs
off the end of the buffer. -/
def readStrAux : List Nat → Except String Str
  | [] => .error "RangeError"
  | b :: rest =>
    if b = 0 then .ok []
    else match readStrAux rest with
      | .error e => .error e
      | .ok tl => .ok (b :: tl)

/-- `readStr` from src/vm.ts: decode the null-terminated byte sequence
starting at `i`. -/
def readStrB (bc : List Nat) (i : Nat) : Except String Str :=
  readStrAux (bc.drop i)

/-- `stackPush` from src/vm.ts (also increments SP). -/
def stackPush (v : Str) (s : VMState) : VMState :=
  { s with stack := v :: s.stack, regs := s.regs.set 1 (s.regs.getD 1 0 + 1) }

/-- `stackPop` from src/vm.ts (decrements SP even on an empty stack,
returning `undefined` = `none`). -/
def stackPop (s : VMState) : Option Str × VMState :=
  match s.stack with
  | [] => (none, { s with regs := s.regs.set 1 (s.regs.getD 1 0 - 1) })
  | v :: rest =>
    (some v, { s with stack := rest, regs := s.regs.set 1 (s.regs.getD 1 0 - 1) })

/-- JS falsiness of a popped value: `undefined` or the empty string. -/
def falsy : Option Str → Bool
  | none => true
  | some v => v.isEmpty

/-- `state.stack.length = n` (JS): truncate to the bottom `n` values, or
extend with holes (a hole behaves as an empty value on this VM's paths). -/
def setStackLength (st : List Str) (n : Nat) : List Str :=
  if n ≤ st.length then st.drop (st.length - n)
  else List.replicate (n - st.length) [] ++ st

/-- What one iteration of the `run` loop reports to its caller. -/
inductive StepEv where
  | next
  | yielded (speaker text : Str)
  | finished (warnNonEmptyStack : Bool)
  deriving DecidableEq, Repr

/-- The `PickOption` pair-popping loop from src/vm.ts
(`for (let i = 0; i < oplen; i += 2)`): pops the key first, then the
value, raising "Stack underflow" when either is falsy. -/
def pickLoop : Nat → List (Str × Str) → VMState →
    Except String (List (Str × Str) × VMState)
  | 0, opts, s => .ok (opts, s)
  | n + 1, opts, s =>
    let (k, s) := stackPop s
    let (v, s) := stackPop s
    if falsy k || falsy v then .error "Stack underflow"
    else pickLoop n (alSet opts (k.getD []) (v.getD [])) s

/-- One iteration of the fetch-decode-execute loop of `run` in
src/vm.ts.  `evalFn` stands for the ambient dynamic evaluator used by
`EvaluateScript` (a host capability, including the `.toString()` step);
`reply` is the host's answer to a `prompt()` call made during this
step (`none` = cancelled). -/
def vmStep (evalFn : Str → Str) (reply : Option Str) (s : VMState) :
    Except String (StepEv × VMState) := do
  let (opcode, s) ← read32 s
  match OPCODE_TO_IROp opcode with
  | some jumpOp => do
    let (t, s) ← read32 s
    .ok (.next, { s with regs := s.regs.set 0 (t : Int) })
  | some endOfScriptOp =>
    .ok (.finished (decide (s.stack.length > 0)), s)
  | some readStrOp => do
    let (off, s) ← read32 s
    let str ← readStrB s.bc off
    .ok (.next, stackPush str s)
  | some setCharacterOp => do
    let (c, s) ← read32 s
    .ok (.next, { s with character := c })
  | some concatenateOp =>
    if s.stack.length < 2 then .error "Stack underflow"
    else
      let (b, s) := stackPop s
      let (a, s) := stackPop s
      .ok (.next, stackPush ((a.getD []) ++ (b.getD [])) s)
  | some showDialogueOp => do
    let (_, s) ← read32 s
    if s.stack.length < 1 then .error "Stack underflow"
    else do
      let speaker ← readStrB s.bc s.character
      let (txt, s) := stackPop s
      .ok (.yielded speaker (txt.getD []), s)
  | some evaluateScriptOp =>
    let (script, s) := stackPop s
    if falsy script then .error "Stack underflow"
    else .ok (.next, stackPush (evalFn (script.getD [])) s)
  | some readVariableOp => do
    let (id, s) ← read32 s
    .ok (.next, stackPush ((alGet s.variableValues id).getD []) s)
  | some setVariableNameOp => do
    let (off, s) ← read32 s
    let name ← readStrB s.bc off
    .ok (.next, { s with
      variableFromName := alSet s.variableFromName name s.nextVariableId,
      nextVariableId := s.nextVariableId + 1 })
  | some setVariableOp =>
    let (v, s) := stackPop s
    if falsy v then .error "Stack underflow"
    else do
      let (id, s) ← read32 s
      .ok (.next, { s with variableValues := alSet s.variableValues id (v.getD []) })
  | some promptOp =>
    let (msg, s) := stackPop s
    if falsy msg then .error "Stack underflow"
    else match reply with
      | none => .error "Prompt cancelled"
      | some r => .ok (.next, stackPush r s)
  | some moveRegRegOp => do
    let (a, s) ← read8 s
    let (b, s) ← read8 s
    let s := { s with regs := s.regs.set a (s.regs.getD b 0) }
    if a = 1 then
      let n := s.regs.getD 1 0
      if n < 0 then .error "RangeError"
      else .ok (.next, { s with stack := setStackLength s.stack n.toNat })
    else .ok (.next, s)
  | some subRegRegOp => do
    let (d, s) ← read8 s
    let (l, s) ← read8 s
    let (r, s) ← read8 s
    .ok (.next, { s with regs := s.regs.set d (s.regs.getD l 0 - s.regs.getD r 0) })
  | some pickOptionOp => do
    let (r, s) ← read8 s
    let oplen := s.regs.getD r 0
    if oplen.emod 2 ≠ 0 then .error "Odd option length in PickOption operand"
    else do
      let (opts, s) ← pickLoop (oplen.toNat / 2) [] s
      match reply with
      | none => .error "Prompt cancelled"
      | some choice =>
        let result := alGet opts choice
        if falsy result then .error "Invalid option"
        else .ok (.next, stackPush choice s)
  | none => .error ("Unknown opcode: " ++ toString opcode)

/-- `createVM` from src/vm.ts. -/
def createVM (bc : List Nat) : VMState :=
  { stack := []
    regs := [0, 0, 0, 0, 0]
    nextVariableId := 0
    variableFromName := []
    variableValues := []
    character := 0
    bc := bc }

/-- The `run` loop of src/vm.ts driven to its next suspension: iterate
`vmStep` until it yields, finishes or throws.  `replies` supplies the
host's prompt answers, one slot per executed instruction. -/
def vmRun (fuel : Nat) (evalFn : Str → Str) (replies : List (Option Str))
    (s : VMState) : Except String (StepEv × VMState) :=
  match fuel with
  | 0 => .error "fuel"
  | fuel + 1 =>
    match vmStep evalFn (replies.headD none) s with
    | .error e => .error e
    | .ok (.next, s') => vmRun fuel evalFn replies.tail s'
    | .ok (ev, s') => .ok (ev, s')

/-! ## Lexer (src/lexer.ts)

Tokens drop their source ranges (used only in diagnostics the claims
never inspect); every cursor-stack mutation of the source is kept.  The
JS `cursorStack` array is a Lean list in the same order: `push`/`pop`
act on the last element (the "current" cursor), `shift` removes the
first. -/

/-- `ScriptCursor` from src/lexer.ts. -/
structure ScriptCursor where
  line : Nat
  column : Nat
  index : Nat
  deriving DecidableEq, Repr

/-- `LexerState` from src/lexer.ts. -/
structure LexerState where
  input : List Char
  cursorStack : List ScriptCursor
  deriving DecidableEq, Repr

/-- `Token` from src/lexer.ts (source ranges omitted). -/
inductive Token where
  | word (text : String)
  | whitespace (text : String)
  | newLine
  | enclosedTextIndicator (enclosure : Char)
  | specialCharacter (character : Char)
  | varTok (name : String)
  | scriptEnd
  deriving DecidableEq, Repr

/-- `currentCursor`: the last cursor of the stack (the stack is never
empty while the source operates correctly; the default is never
reached on the executions the claims quantify over). -/
def currentCursor (lexer : LexerState) : ScriptCursor :=
  lexer.cursorStack.getLastD ⟨1, 1, 0⟩

/-- `currentChar` (`charAt` out of range gives the empty string =
`none`). -/
def currentChar (lexer : LexerState) : Option Char :=
  lexer.input.get? (currentCursor lexer).index

/-- `advanceCursor` for one character: bump index and column; a newline
bumps the line and resets the column. -/
def advanceCursorChar (c : ScriptCursor) (ch : Char) : ScriptCursor :=
  let c1 : ScriptCursor := { c with index := c.index + 1, column := c.column + 1 }
  if ch = '\n' then { c1 with line := c1.line + 1, column := 0 } else c1

/-- `isEOF` from src/lexer.ts. -/
def lexIsEOF (lexer : LexerState) : Bool :=
  decide ((currentCursor lexer).index ≥ lexer.input.length)

/-- `cloneAndPushCursor` from src/lexer.ts. -/
def cloneAndPushCursor (lexer : LexerState) : LexerState :=
  { lexer with cursorStack := lexer.cursorStack ++ [currentCursor lexer] }

/-- The shared epilogue of every read function: the advanced clone
replaces the stack top (pushed by `cloneAndPushCursor` and mutated by
the `advanceCursor` calls) and `shift()` drops the FIRST stack entry. -/
def finishRead (lexer : LexerState) (newBack : ScriptCursor) : LexerState :=
  { lexer with cursorStack := (lexer.cursorStack ++ [newBack]).tail }

/-- `WHITESPACE_CHARS` from src/lexer.ts. -/
def isWhitespaceChar (c : Char) : Bool :=
  c = ' ' || c = '\t' || c = '\r'

/-- `STRING_ENCLOSURES` from src/lexer.ts. -/
def isEnclosureChar (c : Char) : Bool :=
  c = '\'' || c = '"' || c = '`' || c = '{' || c = '}'

/-- `SPECIAL_CHARACTERS` from src/lexer.ts. -/
def isSpecialChar (c : Char) : Bool :=
  c = '*' || c = '_' || c = '@' || c = ':' || c = '\\' || c = '=' ||
    c = '<' || c = '?'

/-- `TEXT_TERMINATORS` from src/lexer.ts. -/
def isTextTerminator (c : Char) : Bool :=
  isWhitespaceChar c || isEnclosureChar c || isSpecialChar c || c = '\n'

/-- `alphaNumericRegex` from src/lexer.ts (`[a-zA-Z0-9]`). -/
def isAlphaNum (c : Char) : Bool :=
  c.isAlpha || c.isDigit

/-- `readWhitespace`: the maximal run of whitespace characters. -/
def readWhitespace (lexer : LexerState) : Token × LexerState :=
  let start := currentCursor lexer
  let cs := (lexer.input.drop start.index).takeWhile isWhitespaceChar
  (.whitespace ⟨cs⟩, finishRead lexer (cs.foldl advanceCursorChar start))

/-- `readNewline`: one character. -/
def readNewline (lexer : LexerState) : Token × LexerState :=
  let start := currentCursor lexer
  let newBack := match currentChar lexer with
    | some ch => advanceCursorChar start ch
    | none => { start with index := start.index + 1, column := start.column + 1 }
  (.newLine, finishRead lexer newBack)

/-- `readEnclosedTextIndicator`: one character, carried in the token. -/
def readEnclosedTextIndicator (lexer : LexerState) : Token × LexerState :=
  let start := currentCursor lexer
  let ch := (currentChar lexer).getD ' '
  (.enclosedTextIndicator ch, finishRead lexer (advanceCursorChar start ch))

/-- `readSpecialCharacter`: one character, carried in the token. -/
def readSpecialCharacter (lexer : LexerState) : Token × LexerState :=
  let start := currentCursor lexer
  let ch := (currentChar lexer).getD ' '
  (.specialCharacter ch, finishRead lexer (advanceCursorChar start ch))

/-- `readWord`: the maximal run of non-terminator characters. -/
def readWord (lexer : LexerState) : Token × LexerState :=
  let start := currentCursor lexer
  let cs := (lexer.input.drop start.index).takeWhile (fun c => !isTextTerminator c)
  (.word ⟨cs⟩, finishRead lexer (cs.foldl advanceCursorChar start))

/-- `readVariable`: consume the `$`, then the maximal alphanumeric
run (the `$` is not part of the name). -/
def readVariable (lexer : LexerState) : Token × LexerState :=
  let start := currentCursor lexer
  let afterDollar := advanceCursorChar start '$'
  let cs := (lexer.input.drop (start.index + 1)).takeWhile isAlphaNum
  (.varTok ⟨cs⟩, finishRead lexer (cs.foldl advanceCursorChar afterDollar))

/-- `getNextToken` from src/lexer.ts: the switch dispatches on the
character classes of the source (whitespace, newline, enclosure marker,
special character, `$`, default word). -/
def getNextToken (lexer : LexerState) : Token × LexerState :=
  if lexIsEOF lexer then (.scriptEnd, lexer)
  else match currentChar lexer with
    | none => readWord lexer
    | some c =>
      if isWhitespaceChar c then readWhitespace lexer
      else if c = '\n' then readNewline lexer
      else if isEnclosureChar c then readEnclosedTextIndicator lexer
      else if isSpecialChar c then readSpecialCharacter lexer
      else if c = '$' then readVariable lexer
      else readWord lexer

/-- `createLexer` from src/lexer.ts. -/
def createLexer (input : String) : LexerState :=
  { input := input.data, cursorStack := [⟨1, 1, 0⟩] }

/-- The state of `tokenGenerator`: its lexer plus whether the generator
already returned (it breaks after yielding `ScriptEnd` once). -/
structure GenState where
  lexer : LexerState
  finished : Bool
  deriving DecidableEq, Repr

/-- One `gen.next()` call on `tokenGenerator`: `none` models the
`{done: true, value: undefined}` result after the generator broke. -/
def genNext (g : GenState) : Option Token × GenState :=
  if g.finished then (none, g)
  else
    let (t, lexer) := getNextToken g.lexer
    (some t, { lexer := lexer, finished := t = .scriptEnd })

/-- The object returned by `lex` in src/lexer.ts: the generator, the
one-token lookahead (`peaked`), the last token (`current`), and the
snapshot stack.  `stackCurrent` is stored top-first (JS `push`/`pop`
act on the array end). -/
structure LexObj where
  gen : GenState
  peaked : Option Token
  current : Option Token
  stackCurrent : List (Option Token)
  deriving DecidableEq, Repr

/-- `lex` from src/lexer.ts (the generator is immediately advanced once
to fill `peaked`; `current` starts equal to it). -/
def lex (input : String) : LexObj :=
  let (p, gen) := genNext { lexer := createLexer input, finished := false }
  { gen := gen, peaked := p, current := p, stackCurrent := [] }

/-- `next()` of the lex object. -/
def LexObj.next (l : LexObj) : Option Token × LexObj :=
  let (p, gen) := genNext l.gen
  (l.peaked, { l with current := l.peaked, peaked := p, gen := gen })

/-- `peek()` of the lex object. -/
def LexObj.peek (l : LexObj) : Option Token := l.peaked

/-- `current()` of the lex object. -/
def LexObj.currentTok (l : LexObj) : Option Token := l.current

/-- `isEOF()` of the lex object. -/
def LexObj.isEOF (l : LexObj) : Bool := lexIsEOF l.gen.lexer

/-- `pushCurrent()`: clone the current cursor onto the cursor stack and
push `peaked` then `current` onto the token snapshot stack. -/
def LexObj.pushCurrent (l : LexObj) : LexObj :=
  { l with
    gen := { l.gen with lexer := cloneAndPushCursor l.gen.lexer },
    stackCurrent := l.current :: l.peaked :: l.stackCurrent }

/-- `popCurrent()`: `cursorStack.pop()` (the LAST cursor), restore
`current` then `peaked` from the token snapshot stack. -/
def LexObj.popCurrent (l : LexObj) : LexObj :=
  { l with
    gen := { l.gen with lexer :=
      { l.gen.lexer with cursorStack := l.gen.lexer.cursorStack.dropLast } },
    current := l.stackCurrent.headD none,
    peaked := (l.stackCurrent.drop 1).headD none,
    stackCurrent := l.stackCurrent.drop 2 }

/-- `shiftLast()`: `cursorStack.shift()` (the FIRST cursor), and drop
the two NEWEST token snapshots. -/
def LexObj.shiftLast (l : LexObj) : LexObj :=
  { l with
    gen := { l.gen with lexer :=
      { l.gen.lexer with cursorStack := l.gen.lexer.cursorStack.tail } },
    stackCurrent := l.stackCurrent.drop 2 }

/-- The results of `n` successive `next()` calls. -/
def tokensFrom (l : LexObj) : Nat → List (Option Token)
  | 0 => []
  | n + 1 =>
    let (t, l') := l.next
    t :: tokensFrom l' n

/-- The result of the `(n+1)`-th `next()` call. -/
def nextIter (l : LexObj) : Nat → Option Token × LexObj
  | 0 => l.next
  | n + 1 => nextIter (l.next).2 n

/-! ## AST (src/parser.ts node shapes) -/

/-- `TextNodeChild` (src/parser.ts): nested text, string literal,
variable expression, or inline script.  `text` carries the nested
`TextNode`'s contents and optional enclosure character. -/
inductive TNChild where
  | text (contents : List TNChild) (enclosed : Option Char)
  | str (contents : String)
  | expr (key : String)
  | script (contents : List TNChild)

/-- `TextNode` (src/parser.ts). -/
structure TextNodeS where
  contents : List TNChild
  enclosed : Option Char := none

/-- `ChoiceValueNode` (src/parser.ts). -/
structure ChoiceValueNode where
  key : String
  prompt : TextNodeS

/-- `AssignmentChoiceNode` (src/parser.ts). -/
structure AssignmentChoiceNode where
  value : ChoiceValueNode

/-- The three top-level statement node kinds of a `Document`. -/
inductive StatementNode where
  | dialogue (speaker : Option String) (contents : TextNodeS)
  | assignment (key : String) (value : TextNodeS) (isPrompt : Bool)
  | assignmentSelect (key : String) (options : List AssignmentChoiceNode)

/-- `DocumentNode` (src/parser.ts). -/
structure DocumentNode where
  contents : List StatementNode

/-! ## Parser (src/parser.ts)

The recursive-descent parser over the lex object.  `while` loops are
fuelled; running out of fuel is a distinct error that never occurs on
the executions the claims evaluate.  `ParseError` payloads carry only
the message (the source also records cursor positions, used purely for
diagnostics). -/

/-- Parser failure: `ParseError`, the `Unimplemented` plain `Error` of
`if`-guarded options, or fuel exhaustion of the model. -/
inductive PErr where
  | parseError (msg : String)
  | unimplemented
  | outOfFuel
  deriving DecidableEq, Repr

/-- `skipWhitespace` from src/parser.ts: consume tokens until one that
is neither whitespace nor (when `includeNewline`) a newline; error on
an exhausted stream. -/
def skipWhitespace (fuel : Nat) (l : LexObj) (includeNewline : Bool) :
    Except PErr (Token × LexObj) :=
  match fuel with
  | 0 => .error .outOfFuel
  | fuel + 1 =>
    let (tok, l) := l.next
    match tok with
    | none => .error (.parseError "Unexpected end of script")
    | some (.whitespace _) => skipWhitespace fuel l includeNewline
    | some .newLine =>
      if includeNewline then skipWhitespace fuel l includeNewline
      else .ok (.newLine, l)
    | some t => .ok (t, l)

/-- The `while` loop of `parseString`: accumulate word and whitespace
text. -/
def parseStringGo (fuel : Nat) (contents : String) (cur : Option Token)
    (l : LexObj) : Except PErr (String × LexObj) :=
  match fuel with
  | 0 => .error .outOfFuel
  | fuel + 1 =>
    match cur with
    | some (.word t) =>
      let (c, l) := l.next
      parseStringGo fuel (contents ++ t) c l
    | some (.whitespace t) =>
      let (c, l) := l.next
      parseStringGo fuel (contents ++ t) c l
    | _ => .ok (contents, l)

/-- `parseString` from src/parser.ts. -/
def parseString (fuel : Nat) (l : LexObj) (firstToken : Token) :
    Except PErr (TNChild × LexObj) :=
  match firstToken with
  | .word _ =>
    match parseStringGo fuel "" (some firstToken) l with
    | .error e => .error e
    | .ok (contents, l) => .ok (.str contents, l)
  | _ => .error (.parseError "Unexpected token")

/-- `parseEscapedCharacter` from src/parser.ts. -/
def parseEscapedCharacter (l : LexObj) (firstToken : Token) :
    Except PErr (TNChild × LexObj) :=
  match firstToken with
  | .specialCharacter ch =>
    match l.peek with
    | none => .error (.parseError "Unexpected end of script")
    | some (.specialCharacter c2) =>
      let (_, l) := l.next
      let (_, l) := l.next
      .ok (.str (String.singleton c2), l)
    | some .newLine =>
      let (_, l) := l.next
      let (_, l) := l.next
      .ok (.str "\n", l)
    | some (.enclosedTextIndicator c2) =>
      let (_, l) := l.next
      let (_, l) := l.next
      .ok (.str (String.singleton c2), l)
    | some _ =>
      let (_, l) := l.next
      .ok (.str (String.singleton ch), l)
  | _ => .error (.parseError "Unexpected token")

/-- `parseExpression` from src/parser.ts. -/
def parseExpression (l : LexObj) (firstToken : Token) :
    Except PErr (TNChild × LexObj) :=
  match firstToken with
  | .varTok name =>
    let (_, l) := l.next
    .ok (.expr name, l)
  | _ => .error (.parseError "Unexpected token")

/-- `pushChild` of `parseTextNodeChildren`: merge adjacent string
children, else append. -/
def pushChild (children : List TNChild) (child : TNChild) : List TNChild :=
  match children.getLast?, child with
  | some (.str s), .str s2 => children.dropLast ++ [.str (s ++ s2)]
  | _, _ => children ++ [child]

mutual

/-- `parseEnclosedTextNode` from src/parser.ts. -/
def parseEnclosedTextNode (fuel : Nat) (l : LexObj) (firstToken : Token)
    (disallowTextString : Bool) : Except PErr (TNChild × LexObj) :=
  match fuel with
  | 0 => .error .outOfFuel
  | fuel + 1 =>
    match firstToken with
    | .enclosedTextIndicator enc =>
      if disallowTextString && (enc = '"' || enc = '\'') then
        let (_, l) := l.next
        .ok (.str (String.singleton enc), l)
      else
        let enclosedEnd := if enc = '{' then '}' else enc
        if enc = '{' then
          let (tok, l) := l.next
          match parseTextNodeChildren fuel l tok (some enclosedEnd) (some '{') 0 with
          | .error e => .error e
          | .ok (children, l) => .ok (.script children, l)
        else
          let (tok, l) := l.next
          match parseTextNodeChildren fuel l tok (some enclosedEnd) none 0 with
          | .error e => .error e
          | .ok (children, l) => .ok (.text children (some enc), l)
    | _ => .error (.parseError "Unexpected token")

/-- `parseTextNodeChildren` from src/parser.ts (entry: error on a
missing first token, then the while loop). -/
def parseTextNodeChildren (fuel : Nat) (l : LexObj) (firstToken : Option Token)
    (enclosedEnd ignoreEnclosureStart : Option Char)
    (ignoreEnclosureEndCount : Nat) : Except PErr (List TNChild × LexObj) :=
  match fuel with
  | 0 => .error .outOfFuel
  | fuel + 1 =>
    match firstToken with
    | none => .error (.parseError "Unexpected end of script")
    | some t =>
      parseTNCLoop fuel [] ignoreEnclosureEndCount (some t) enclosedEnd
        ignoreEnclosureStart l

/-- The while loop of `parseTextNodeChildren`, carrying the children
accumulated so far and the nested-enclosure ignore count. -/
def parseTNCLoop (fuel : Nat) (children : List TNChild) (ignoreCount : Nat)
    (cur : Option Token) (enclosedEnd ignoreStart : Option Char) (l : LexObj) :
    Except PErr (List TNChild × LexObj) :=
  match fuel with
  | 0 => .error .outOfFuel
  | fuel + 1 =>
    match cur with
    | none => .ok (children, l)
    | some t =>
      if (enclosedEnd.isNone && t = .newLine) || t = .scriptEnd then
        .ok (children, l)
      else
        match t with
        | .word _ =>
          match parseString fuel l t with
          | .error e => .error e
          | .ok (child, l) =>
            parseTNCLoop fuel (pushChild children child) ignoreCount
              l.currentTok enclosedEnd ignoreStart l
        | .specialCharacter ch =>
          if ch = '\\' then
            match parseEscapedCharacter l t with
            | .error e => .error e
            | .ok (child, l) =>
              parseTNCLoop fuel (pushChild children child) ignoreCount
                l.currentTok enclosedEnd ignoreStart l
          else
            let (cur, l) := l.next
            parseTNCLoop fuel
              (pushChild children (.str (String.singleton ch))) ignoreCount
              cur enclosedEnd ignoreStart l
        | .enclosedTextIndicator ch =>
          if some ch = enclosedEnd then
            if ignoreCount > 0 then
              let (cur, l) := l.next
              parseTNCLoop fuel
                (pushChild children (.str (String.singleton ch)))
                (ignoreCount - 1) cur enclosedEnd ignoreStart l
            else
              let (_, l) := l.next
              .ok (children, l)
          else if some ch = ignoreStart then
            let (cur, l) := l.next
            parseTNCLoop fuel
              (pushChild children (.str (String.singleton ch)))
              (ignoreCount + 1) cur enclosedEnd ignoreStart l
          else
            match parseEnclosedTextNode fuel l t true with
            | .error e => .error e
            | .ok (child, l) =>
              parseTNCLoop fuel (pushChild children child) ignoreCount
                l.currentTok enclosedEnd ignoreStart l
        | .whitespace txt =>
          let (cur, l) := l.next
          parseTNCLoop fuel (pushChild children (.str txt)) ignoreCount
            cur enclosedEnd ignoreStart l
        | .varTok _ =>
          match parseExpression l t with
          | .error e => .error e
          | .ok (child, l) =>
            parseTNCLoop fuel (pushChild children child) ignoreCount
              l.currentTok enclosedEnd ignoreStart l
        | .newLine =>
          let (cur, l) := l.next
          parseTNCLoop fuel (pushChild children (.str "\n")) ignoreCount
            cur enclosedEnd ignoreStart l
        | .scriptEnd => .ok (children, l)

end

/-- `parseTextNode` from src/parser.ts. -/
def parseTextNode (fuel : Nat) (l : LexObj) (firstToken : Token) :
    Except PErr (TextNodeS × LexObj) :=
  match firstToken with
  | .word _ =>
    match parseTextNodeChildren fuel l (some firstToken) none none 0 with
    | .error e => .error e
    | .ok (children, l) => .ok (⟨children, none⟩, l)
  | .specialCharacter _ =>
    match parseTextNodeChildren fuel l (some firstToken) none none 0 with
    | .error e => .error e
    | .ok (children, l) => .ok (⟨children, none⟩, l)
  | .varTok _ =>
    match parseTextNodeChildren fuel l (some firstToken) none none 0 with
    | .error e => .error e
    | .ok (children, l) => .ok (⟨children, none⟩, l)
  | .newLine => .ok (⟨[], none⟩, l)
  | .enclosedTextIndicator _ =>
    match parseEnclosedTextNode fuel l firstToken false with
    | .error e => .error e
    | .ok (child, l) => .ok (⟨[child], none⟩, l)
  | .scriptEnd => .ok (⟨[], none⟩, l)
  | .whitespace _ => .error (.parseError "Unexpected token")

/-- `parseDialogue` from src/parser.ts: a `Word` immediately followed
by `:` names the speaker; the rest of the line is the text.  The
result is the `(speaker?, contents)` pair of the `Dialogue` node. -/
def parseDialogue (fuel : Nat) (l : LexObj) (firstToken : Token) :
    Except PErr ((Option String × TextNodeS) × LexObj) :=
  match firstToken with
  | .word text =>
    let speaker : Option String :=
      match l.peek with
      | some (.specialCharacter ':') => some text
      | _ => none
    let speakerTruthy := match speaker with
      | some s => !s.isEmpty
      | none => false
    if speakerTruthy then
      let (_, l) := l.next
      match skipWhitespace fuel l false with
      | .error e => .error e
      | .ok (tok, l) =>
        match parseTextNode fuel l tok with
        | .error e => .error e
        | .ok (contents, l) => .ok ((speaker, contents), l)
    else
      match parseTextNode fuel l firstToken with
      | .error e => .error e
      | .ok (contents, l) => .ok ((speaker, contents), l)
  | .varTok _ =>
    match parseTextNode fuel l firstToken with
    | .error e => .error e
    | .ok (contents, l) => .ok ((none, contents), l)
  | _ => .error (.parseError "Unexpected token")

/-- The `?`, `<`, `=` disambiguation set of `parsePossibleAssignment`. -/
def isAssignSpecial : Token → Bool
  | .specialCharacter c => c = '?' || c = '<' || c = '='
  | _ => false

/-- The option-collection loop of `parsePossibleAssignment` (the
`while (!lex.isEOF())` loop): word key, quoted prompt, continue while
followed (after whitespace) by another `?`; `if` is reserved and
unimplemented. -/
def parseSelectLoop (fuel : Nat) (options : List AssignmentChoiceNode)
    (l : LexObj) : Except PErr (List AssignmentChoiceNode × LexObj) :=
  match fuel with
  | 0 => .error .outOfFuel
  | fuel + 1 =>
    if !l.isEOF then
      match skipWhitespace fuel l true with
      | .error e => .error e
      | .ok (cur, l) =>
        match cur with
        | .word text =>
          if text ≠ "if" then
            let (_, l) := l.next
            match skipWhitespace fuel l true with
            | .error e => .error e
            | .ok (nxt, l) =>
              match nxt with
              | .enclosedTextIndicator enc =>
                if enc = '\'' || enc = '"' then
                  match parseEnclosedTextNode fuel l nxt false with
                  | .error e => .error e
                  | .ok (prompt, l) =>
                    match prompt with
                    | .text cs pe =>
                      let options := options ++
                        [{ value := { key := text, prompt := ⟨cs, pe⟩ } }]
                      match skipWhitespace fuel l false with
                      | .error e => .error e
                      | .ok (nextLine, l) =>
                        if nextLine = .specialCharacter '?' then
                          parseSelectLoop fuel options l
                        else .ok (options, l)
                    | _ => .error (.parseError "Unexpected node")
                else .error (.parseError "Unexpected token")
              | _ => .error (.parseError "Unexpected token")
          else .error .unimplemented
        | _ => .error (.parseError "Unexpected token")
    else .ok (options, l)

/-- `parsePossibleAssignment` from src/parser.ts: snapshot, skip
whitespace (newlines included), then commit to assignment/select on
`?`/`<`/`=` or rewind and parse a dialogue line. -/
def parsePossibleAssignment (fuel : Nat) (l : LexObj) (firstToken : Token) :
    Except PErr (StatementNode × LexObj) :=
  match firstToken with
  | .varTok name =>
    let l := l.pushCurrent
    match skipWhitespace fuel l true with
    | .error e => .error e
    | .ok (nextToken, l) =>
      if !(isAssignSpecial nextToken) then
        let l := l.popCurrent
        match parseDialogue fuel l firstToken with
        | .error e => .error e
        | .ok ((sp, contents), l) => .ok (.dialogue sp contents, l)
      else
        let l := l.shiftLast
        let (_, l) := l.next
        match nextToken with
        | .specialCharacter c =>
          if c = '?' then
            match parseSelectLoop fuel [] l with
            | .error e => .error e
            | .ok (options, l) => .ok (.assignmentSelect name options, l)
          else
            match skipWhitespace fuel l false with
            | .error e => .error e
            | .ok (tok, l) =>
              match parseTextNode fuel l tok with
              | .error e => .error e
              | .ok (value, l) => .ok (.assignment name value (c = '<'), l)
        | _ => .error (.parseError "Unexpected token")
  | _ => .error (.parseError "Unexpected token")

/-! ## IR and compiler (src/compiler.ts, src/bytecode.ts) -/

/-- The IR operation list (`IR`/`IROp` of src/bytecode.ts).
`moveRegReg` stores the source's `from` field first, `to` second. -/
inductive IR where
  | label (target : Nat)
  | readStr (string : Nat)
  | setCharacter (character : Nat)
  | showDialogue (enclosed : Option Char)
  | evaluateScript
  | concatenate
  | readVariable (v : Nat)
  | setVariableName (v : Nat)
  | jump (target : Nat)
  | endOfScript
  | setVariable (v : Nat)
  | prompt
  | moveRegReg (fromReg toReg : Nat)
  | subRegReg (into registerLeft registerRight : Nat)
  | pickOption (register : Nat)
  deriving DecidableEq, Repr

/-- `CompilerState` from src/compiler.ts: the three symbol tables with
their next-id counters. -/
structure CompilerState where
  characterIdNext : Nat
  characters : List (String × Nat)
  stringIdNext : Nat
  strings : List (String × Nat)
  variableIdNext : Nat
  variableTable : List (String × Nat)
  deriving DecidableEq, Repr

/-- `createCompiler` from src/compiler.ts. -/
def createCompiler : CompilerState :=
  { characterIdNext := 0, characters := []
    stringIdNext := 0, strings := []
    variableIdNext := 0, variableTable := [] }

/-- `getCharacterId` from src/compiler.ts: existing id, or assign the
next one on first use. -/
def getCharacterId (state : CompilerState) (name : String) : Nat × CompilerState :=
  match alGet state.characters name with
  | some existing => (existing, state)
  | none =>
    (state.characterIdNext,
      { state with
        characterIdNext := state.characterIdNext + 1,
        characters := alSet state.characters name state.characterIdNext })

/-- `getStringId` from src/compiler.ts. -/
def getStringId (state : CompilerState) (text : String) : Nat × CompilerState :=
  match alGet state.strings text with
  | some existing => (existing, state)
  | none =>
    (state.stringIdNext,
      { state with
        stringIdNext := state.stringIdNext + 1,
        strings := alSet state.strings text state.stringIdNext })

/-- `getVariableId` from src/compiler.ts. -/
def getVariableId (state : CompilerState) (name : String) : Nat × CompilerState :=
  match alGet state.variableTable name with
  | some existing => (existing, state)
  | none =>
    (state.variableIdNext,
      { state with
        variableIdNext := state.variableIdNext + 1,
        variableTable := alSet state.variableTable name state.variableIdNext })

mutual

/-- `compileScript` from src/compiler.ts: lower the script's text, then
`EvaluateScript`. -/
def compileScript (contents : List TNChild) (state : CompilerState) :
    List IR × CompilerState :=
  let (ir, state) := compileTextNode contents state
  (ir ++ [.evaluateScript], state)

/-- `compileTextNodeChild` from src/compiler.ts. -/
def compileTextNodeChild (child : TNChild) (state : CompilerState) :
    List IR × CompilerState :=
  match child with
  | .script cs => compileScript cs state
  | .expr key =>
    let (id, state) := getVariableId state key
    ([.readVariable id], state)
  | .str contents =>
    let (id, state) := getStringId state contents
    ([.readStr id], state)
  | .text cs _ => compileTextNode cs state

/-- The `for (const child of node.contents)` loop of `compileTextNode`:
each child's IR, with a `Concatenate` appended after every non-first
child. -/
def compileTextNodeGo (children : List TNChild) (isFirstNode : Bool)
    (state : CompilerState) : List IR × CompilerState :=
  match children with
  | [] => ([], state)
  | child :: rest =>
    let (ir, state) := compileTextNodeChild child state
    let ir := if isFirstNode then ir else ir ++ [.concatenate]
    let (irs, state) := compileTextNodeGo rest false state
    (ir ++ irs, state)

/-- `compileTextNode` from src/compiler.ts (takes the node's contents). -/
def compileTextNode (contents : List TNChild) (state : CompilerState) :
    List IR × CompilerState :=
  compileTextNodeGo contents true state

end

/-- `compileDialogue` from src/compiler.ts. -/
def compileDialogue (speaker : Option String) (contents : TextNodeS)
    (state : CompilerState) : List IR × CompilerState :=
  match speaker with
  | some name =>
    let (cid, state) := getCharacterId state name
    let (ir, state) := compileTextNode contents.contents state
    ([.setCharacter cid] ++ ir ++ [.showDialogue contents.enclosed], state)
  | none =>
    let (ir, state) := compileTextNode contents.contents state
    (ir ++ [.showDialogue contents.enclosed], state)

/-- `compileAssignment` from src/compiler.ts. -/
def compileAssignment (key : String) (value : TextNodeS) (isPrompt : Bool)
    (state : CompilerState) : List IR × CompilerState :=
  let (ir, state) := compileTextNode value.contents state
  let ir := if isPrompt then ir ++ [.prompt] else ir
  let (vid, state) := getVariableId state key
  (ir ++ [.setVariable vid], state)

/-- `compileChoiceValue` (inner function of `compileAssignmentSelect` in
src/compiler.ts): the option's prompt text, then `ReadStr` of the
option key. -/
def compileChoiceValue (value : ChoiceValueNode) (state : CompilerState) :
    List IR × CompilerState :=
  let (ir, state) := compileTextNode value.prompt.contents state
  let (id, state) := getStringId state value.key
  (ir ++ [.readStr id], state)

/-- The `for (const option of assignment.options)` loop of
`compileAssignmentSelect`. -/
def compileOptions (options : List AssignmentChoiceNode)
    (state : CompilerState) : List IR × CompilerState :=
  match options with
  | [] => ([], state)
  | o :: rest =>
    let (ir, state) := compileChoiceValue o.value state
    let (irs, state) := compileOptions rest state
    (ir ++ irs, state)

/-- `compileAssignmentSelect` from src/compiler.ts: snapshot SP into R0,
push the options, compute `SP - R0` into R0, `PickOption R0`,
`SetVariable`. -/
def compileAssignmentSelect (key : String)
    (options : List AssignmentChoiceNode) (state : CompilerState) :
    List IR × CompilerState :=
  let (optIR, state) := compileOptions options state
  let (vid, state) := getVariableId state key
  ([.moveRegReg 1 3] ++ optIR ++
    [.subRegReg 3 1 3, .pickOption 3, .setVariable vid], state)

/-- `compileIR` from src/compiler.ts: leading `Label 0`, every document
statement in order, trailing `EndOfScript`. -/
def compileIR (document : DocumentNode) (state : CompilerState) :
    List IR × CompilerState :=
  let (ir, state) := document.contents.foldl
    (fun (acc : List IR × CompilerState) node =>
      let (irs, state) := acc
      match node with
      | .dialogue speaker contents =>
        let (ir, state) := compileDialogue speaker contents state
        (irs ++ ir, state)
      | .assignment key value isPrompt =>
        let (ir, state) := compileAssignment key value isPrompt state
        (irs ++ ir, state)
      | .assignmentSelect key options =>
        let (ir, state) := compileAssignmentSelect key options state
        (irs ++ ir, state))
    ([IR.label 0], state)
  (ir ++ [.endOfScript], state)

/-! ## Static stack effect of IR operations -/

/-- Net number of values an instruction pushes minus pops when executed
by the VM of src/vm.ts; `none` for the two ops whose effect depends on
a register value at run time. -/
def irStackEffect : IR → Option Int
  | .label _ => some 0
  | .readStr _ => some 1
  | .setCharacter _ => some 0
  | .showDialogue _ => some (-1)
  | .evaluateScript => some 0
  | .concatenate => some (-1)
  | .readVariable _ => some 1
  | .setVariableName _ => some 0
  | .jump _ => some 0
  | .endOfScript => some 0
  | .setVariable _ => some (-1)
  | .prompt => some 0
  | .moveRegReg _ _ => none
  | .subRegReg _ _ _ => some 0
  | .pickOption _ => none

/-- Net stack effect of an IR sequence (`none` when any op's effect is
dynamic). -/
def netEffect : List IR → Option Int
  | [] => some 0
  | op :: rest =>
    match irStackEffect op, netEffect rest with
    | some a, some b => some (a + b)
    | _, _ => none

mutual

/-- A text-node child all of whose (transitively) nested text and script
nodes have at least one child. -/
def wfChild : TNChild → Bool
  | .str _ => true
  | .expr _ => true
  | .text cs _ => wfContents cs
  | .script cs => wfContents cs

/-- Non-empty contents, every child well-formed. -/
def wfContents : List TNChild → Bool
  | [] => false
  | [c] => wfChild c
  | c :: rest => wfChild c && wfContents rest

end

/-! ## Bytecode encoder (`compileBytecode` of src/compiler.ts) -/

/-- The four little-endian bytes of `DataView.setUint32` (wraps mod
2^32). -/
def le4 (v : Nat) : List Nat :=
  [v % 256, v / 256 % 256, v / 65536 % 256, v / 16777216 % 256]

/-- `operandOp` from src/compiler.ts: 4-byte opcode followed by 4-byte
little-endian operands. -/
def operandOp (op : OpName) (operands : List Nat) : List Nat :=
  le4 (OPCODE_MAP op) ++ operands.flatMap le4

/-- `operandOp8` from src/compiler.ts: 4-byte opcode followed by 1-byte
operands. -/
def operandOp8 (op : OpName) (operands : List Nat) : List Nat :=
  le4 (OPCODE_MAP op) ++ operands.map (· % 256)

/-- UTF-8 encoding of one character (what `TextEncoder` emits). -/
def utf8Bytes (c : Char) : List Nat :=
  let v := c.toNat
  if v < 128 then [v]
  else if v < 2048 then [192 + v / 64, 128 + v % 64]
  else if v < 65536 then [224 + v / 4096, 128 + v / 64 % 64, 128 + v % 64]
  else [240 + v / 262144, 128 + v / 4096 % 64, 128 + v / 64 % 64, 128 + v % 64]

/-- `stringData` from src/compiler.ts (`TextEncoder`): UTF-8 bytes. -/
def stringData (str : String) : List Nat :=
  str.data.flatMap utf8Bytes

/-- Stable insertion into a list sorted ascending by id. -/
def insertById (p : String × Nat) : List (String × Nat) → List (String × Nat)
  | [] => [p]
  | q :: rest => if q.2 ≤ p.2 then q :: insertById p rest else p :: q :: rest

/-- `orderedVariables` of `compileBytecode`: the variable table sorted
ascending by id (`.sort((a, b) => a[1] - b[1])`, a stable sort). -/
def orderedVariables (state : CompilerState) : List (String × Nat) :=
  state.variableTable.foldl (fun acc p => insertById p acc) []

/-- The local mutable state of `compileBytecode`: the four pending-patch
lists, the four id-to-offset tables, the emitted chunks and the running
byte offset `current`. -/
structure EncSt where
  labelSubs : List (Nat × Nat)
  stringSubs : List (Nat × Nat)
  varSubs : List (Nat × Nat)
  charSubs : List (Nat × Nat)
  labels : List (Nat × Nat)
  stringLabels : List (Nat × Nat)
  variableLabels : List (Nat × Nat)
  characterLabels : List (Nat × Nat)
  bytecode : List (List Nat)
  current : Nat
  deriving DecidableEq, Repr

/-- The empty encoder state. -/
def EncSt.empty : EncSt :=
  { labelSubs := [], stringSubs := [], varSubs := [], charSubs := []
    labels := [], stringLabels := [], variableLabels := []
    characterLabels := [], bytecode := [], current := 0 }

/-- `pushBytecode` from src/compiler.ts. -/
def pushBytecode (e : EncSt) (bc : List Nat) : EncSt :=
  { e with bytecode := e.bytecode ++ [bc], current := e.current + bc.length }

/-- One iteration of the header loop: a `SetVariableName` placeholder
recorded as a variable patch at its operand offset. -/
def headerVarStep (e : EncSt) (p : String × Nat) : EncSt :=
  let e := pushBytecode e (operandOp setVariableNameOp [0])
  { e with varSubs := e.varSubs ++ [(p.2, e.current - 4)] }

/-- One iteration of the variable-name symbol-table loop. -/
def symVarStep (e : EncSt) (p : String × Nat) : EncSt :=
  let e := { e with variableLabels := alSet e.variableLabels p.2 e.current }
  let e := pushBytecode e (stringData p.1)
  pushBytecode e [0]

/-- One iteration of the interned-string symbol-table loop. -/
def symStringStep (e : EncSt) (p : String × Nat) : EncSt :=
  let e := { e with stringLabels := alSet e.stringLabels p.2 e.current }
  let e := pushBytecode e (stringData p.1)
  pushBytecode e [0]

/-- One iteration of the character-name symbol-table loop. -/
def symCharStep (e : EncSt) (p : String × Nat) : EncSt :=
  let e := { e with characterLabels := alSet e.characterLabels p.2 e.current }
  let e := pushBytecode e (stringData p.1)
  pushBytecode e [0]

/-- The `Jump` placeholder that skips the symbol-table region, recorded
as a patch on label 0. -/
def headerJumpStep (e : EncSt) : EncSt :=
  let e := pushBytecode e (operandOp jumpOp [0])
  { e with labelSubs := e.labelSubs ++ [(0, e.current - 4)] }

/-- Pass 1 header and symbol-table region of `compileBytecode`: one
`SetVariableName` placeholder per declared variable (each recorded as a
variable patch), one `Jump` placeholder (recorded as a patch on label
0), then the null-terminated variable names, interned strings and
character names, each recording its id-to-offset entry. -/
def encodeHeader (state : CompilerState) : EncSt :=
  state.characters.foldl symCharStep
    (state.strings.foldl symStringStep
      ((orderedVariables state).foldl symVarStep
        (headerJumpStep
          ((orderedVariables state).foldl headerVarStep EncSt.empty))))

/-- One arm of the `for (const irOp of ir)` switch of `compileBytecode`.
Note that `ReadVariable` and `SetVariable` push their raw operand with
no pending patch, unlike `ReadStr`, `SetCharacter`, `Jump` and
`SetVariableName`. -/
def emitOne (op : IR) (e : EncSt) : EncSt :=
  match op with
  | .label target => { e with labels := alSet e.labels target e.current }
  | .readStr s =>
    let e := pushBytecode e (operandOp readStrOp [s])
    { e with stringSubs := e.stringSubs ++ [(s, e.current - 4)] }
  | .setCharacter c =>
    let e := pushBytecode e (operandOp setCharacterOp [c])
    { e with charSubs := e.charSubs ++ [(c, e.current - 4)] }
  | .showDialogue enclosed =>
    pushBytecode e (operandOp showDialogueOp [if enclosed.isSome then 1 else 0])
  | .evaluateScript => pushBytecode e (operandOp evaluateScriptOp [])
  | .concatenate => pushBytecode e (operandOp concatenateOp [])
  | .readVariable v => pushBytecode e (operandOp readVariableOp [v])
  | .jump t =>
    let e := pushBytecode e (operandOp jumpOp [t])
    { e with labelSubs := e.labelSubs ++ [(t, e.current - 4)] }
  | .setVariableName v =>
    let e := pushBytecode e (operandOp setVariableNameOp [v])
    { e with varSubs := e.varSubs ++ [(v, e.current - 4)] }
  | .endOfScript => pushBytecode e (operandOp endOfScriptOp [])
  | .setVariable v => pushBytecode e (operandOp setVariableOp [v])
  | .prompt => pushBytecode e (operandOp promptOp [])
  | .moveRegReg fromReg toReg =>
    pushBytecode e (operandOp8 moveRegRegOp [toReg, fromReg])
  | .subRegReg into l r => pushBytecode e (operandOp8 subRegRegOp [into, l, r])
  | .pickOption r => pushBytecode e (operandOp8 pickOptionOp [r])

/-- The code-region loop of `compileBytecode`. -/
def emitCode : List IR → EncSt → EncSt
  | [], e => e
  | op :: rest, e => emitCode rest (emitOne op e)

/-- Pass 1 of `compileBytecode`: header, symbol table, code region. -/
def compileBytecodeFull (ir : List IR) (state : CompilerState) : EncSt :=
  emitCode ir (encodeHeader state)

/-- `view.setUint32(off, v, true)` on the flat buffer. -/
def writeLE4At (buf : List Nat) (off v : Nat) : List Nat :=
  ((((buf.set off (v % 256)).set (off + 1) (v / 256 % 256)).set
    (off + 2) (v / 65536 % 256)).set (off + 3) (v / 16777216 % 256))

/-- Pass 2 of `compileBytecode` for one patch category: look up each
pending patch's id in its id-to-offset table and overwrite the 4
placeholder bytes; fatal error when an id is missing. -/
def applyPatches (category : String) (buf : List Nat) :
    List (Nat × Nat) → List (Nat × Nat) → Except String (List Nat)
  | [], _ => .ok buf
  | (id, off) :: rest, table =>
    match alGet table id with
    | none => .error (category ++ " " ++ toString id ++ " not found")
    | some target => applyPatches category (writeLE4At buf off target) rest table

/-- `compileBytecode` from src/compiler.ts: pass 1 layout, then pass 2
patch resolution for labels, strings, variables and characters. -/
def compileBytecode (ir : List IR) (state : CompilerState) :
    Except String (List Nat) := do
  let e := compileBytecodeFull ir state
  let buf := e.bytecode.flatten
  let buf ← applyPatches "Label" buf e.labelSubs e.labels
  let buf ← applyPatches "String" buf e.stringSubs e.stringLabels
  let buf ← applyPatches "Variable" buf e.varSubs e.variableLabels
  let buf ← applyPatches "Character" buf e.charSubs e.characterLabels
  pure buf

/-- Byte length of the encoding of one IR op (`Label` emits nothing). -/
def instrLen : IR → Nat
  | .label _ => 0
  | .evaluateScript => 4
  | .concatenate => 4
  | .endOfScript => 4
  | .prompt => 4
  | .pickOption _ => 5
  | .moveRegReg _ _ => 6
  | .subRegReg _ _ _ => 7
  | _ => 8

/-- The string patches the code region starting at offset `c` must
record: one per `ReadStr`, at its operand offset. -/
def codeStringSubs : List IR → Nat → List (Nat × Nat)
  | [], _ => []
  | .readStr s :: rest, c => (s, c + 4) :: codeStringSubs rest (c + 8)
  | op :: rest, c => codeStringSubs rest (c + instrLen op)

/-- The character patches of the code region: one per `SetCharacter`. -/
def codeCharSubs : List IR → Nat → List (Nat × Nat)
  | [], _ => []
  | .setCharacter s :: rest, c => (s, c + 4) :: codeCharSubs rest (c + 8)
  | op :: rest, c => codeCharSubs rest (c + instrLen op)

/-- The label patches of the code region: one per `Jump`. -/
def codeLabelSubs : List IR → Nat → List (Nat × Nat)
  | [], _ => []
  | .jump t :: rest, c => (t, c + 4) :: codeLabelSubs rest (c + 8)
  | op :: rest, c => codeLabelSubs rest (c + instrLen op)

/-- The variable patches of the code region: one per `SetVariableName` —
and none for `ReadVariable` or `SetVariable`, whose operands stay raw
variable ids. -/
def codeVarSubs : List IR → Nat → List (Nat × Nat)
  | [], _ => []
  | .setVariableName v :: rest, c => (v, c + 4) :: codeVarSubs rest (c + 8)
  | op :: rest, c => codeVarSubs rest (c + instrLen op)

/-- The variable patches of the header region: one per declared
variable, 8 bytes apart, at operand offset `c + 4`. -/
def headerVarSubsFrom : List (String × Nat) → Nat → List (Nat × Nat)
  | [], _ => []
  | p :: rest, c => (p.2, c + 4) :: headerVarSubsFrom rest (c + 8)

/-- Invariant carried by the mutual stack-effect induction:
`compileScript` output has net effect +1 on well-formed contents. -/
def ScriptEffectP (cs : List TNChild) (st : CompilerState) : Prop :=
  wfContents cs = true → netEffect (compileScript cs st).1 = some 1

/-- `compileTextNode` output has net effect +1 on well-formed contents. -/
def TextNodeEffectP (cs : List TNChild) (st : CompilerState) : Prop :=
  wfContents cs = true → netEffect (compileTextNode cs st).1 = some 1

/-- The text-node loop: +1 from the first child on, 0 for a
continuation (each further child's +1 is consumed by its
`Concatenate`). -/
def GoEffectP (cs : List TNChild) (flag : Bool) (st : CompilerState) : Prop :=
  (flag = true → wfContents cs = true →
    netEffect (compileTextNodeGo cs flag st).1 = some 1) ∧
  (flag = false → cs.all wfChild = true →
    netEffect (compileTextNodeGo cs flag st).1 = some 0)

/-- `compileTextNodeChild` output has net effect +1 on a well-formed
child. -/
def ChildEffectP (c : TNChild) (st : CompilerState) : Prop :=
  wfChild c = true → netEffect (compileTextNodeChild c st).1 = some 1

/-! ## VM theorems -/

/-- C8: executing `ReadVariable` for a variable id that was never
assigned pushes the empty string onto the stack and raises no runtime
error. -/
theorem readVariable_unset_pushes_empty (f : Str → Str) (r : Option Str)
    (s s₁ s₂ : VMState) (id : Nat)
    (h1 : read32 s = .ok (5, s₁)) (h2 : read32 s₁ = .ok (id, s₂))
    (h3 : alGet s₂.variableValues id = none) :
    vmStep f r s = .ok (.next, stackPush [] s₂) := by
  simp [vmStep, h1, OPCODE_TO_IROp, h2, h3, Bind.bind, Except.bind]

/-- Witness for `readVariable_unset_pushes_empty`: a `ReadVariable 9`
instruction on a fresh VM pushes the empty string. -/
theorem readVariable_unset_pushes_empty_witness :
    vmStep (fun v => v) none (createVM [5, 0, 0, 0, 9, 0, 0, 0]) =
      .ok (.next, stackPush []
        { createVM [5, 0, 0, 0, 9, 0, 0, 0] with regs := [8, 0, 0, 0, 0] }) :=
  readVariable_unset_pushes_empty (fun v => v) none
    (createVM [5, 0, 0, 0, 9, 0, 0, 0])
    { createVM [5, 0, 0, 0, 9, 0, 0, 0] with regs := [4, 0, 0, 0, 0] }
    { createVM [5, 0, 0, 0, 9, 0, 0, 0] with regs := [8, 0, 0, 0, 0] }
    9 rfl rfl rfl

/-- C10: `createVM` initialises the current-character register to 0, so a
`ShowDialogue` executed before any `SetCharacter` displays as speaker the
null-terminated byte sequence decoded from offset 0 of the bytecode image
(which holds the first bytes of the first instruction), not an
absent/empty speaker. -/
theorem showDialogue_initial_character_reads_offset_zero :
    (∀ bc, (createVM bc).character = 0) ∧
    (∀ (f : Str → Str) (r : Option Str) (s s₁ s₂ : VMState) (enc : Nat)
      (spk : Str),
      read32 s = .ok (2, s₁) → read32 s₁ = .ok (enc, s₂) →
      s₂.character = 0 → s₂.stack ≠ [] →
      readStrB s₂.bc 0 = .ok spk →
      vmStep f r s = .ok (.yielded spk ((stackPop s₂).1.getD []),
        (stackPop s₂).2)) := by
  constructor
  · intro bc; rfl
  · intro f r s s₁ s₂ enc spk h1 h2 hc hst hspk
    rw [← hc] at hspk
    simp [vmStep, h1, OPCODE_TO_IROp, h2, hspk, hst,
      Bind.bind, Except.bind]

/-- Witness for `showDialogue_initial_character_reads_offset_zero`: with
one stack value and character register 0, the displayed speaker decodes
from offset 0 (here the single byte 2, the first byte of the
`ShowDialogue` opcode itself). -/
theorem showDialogue_initial_character_reads_offset_zero_witness :
    vmStep (fun v => v) none
      { stack := [[72, 105]], regs := [0, 1, 0, 0, 0], nextVariableId := 0,
        variableFromName := [], variableValues := [], character := 0,
        bc := [2, 0, 0, 0, 0, 0, 0, 0] } =
      .ok (.yielded [2] [72, 105],
        { stack := [], regs := [8, 0, 0, 0, 0], nextVariableId := 0,
          variableFromName := [], variableValues := [], character := 0,
          bc := [2, 0, 0, 0, 0, 0, 0, 0] }) :=
  showDialogue_initial_character_reads_offset_zero.2
    (fun v => v) none
    { stack := [[72, 105]], regs := [0, 1, 0, 0, 0], nextVariableId := 0,
      variableFromName := [], variableValues := [], character := 0,
      bc := [2, 0, 0, 0, 0, 0, 0, 0] }
    { stack := [[72, 105]], regs := [4, 1, 0, 0, 0], nextVariableId := 0,
      variableFromName := [], variableValues := [], character := 0,
      bc := [2, 0, 0, 0, 0, 0, 0, 0] }
    { stack := [[72, 105]], regs := [8, 1, 0, 0, 0], nextVariableId := 0,
      variableFromName := [], variableValues := [], character := 0,
      bc := [2, 0, 0, 0, 0, 0, 0, 0] }
    0 [2] rfl rfl rfl (by simp) rfl

/-- C4 (code bug): `SetVariable`, `Prompt` and `EvaluateScript` pop with
`if (!value) throw new Error("Stack underflow")`, so popping the empty
string — a falsy value — raises "Stack underflow" even though the stack
is non-empty. -/
theorem empty_string_pop_raises_underflow :
    vmStep (fun v => v) none
      { stack := [[]], regs := [0, 1, 0, 0, 0], nextVariableId := 0,
        variableFromName := [], variableValues := [], character := 0,
        bc := [9, 0, 0, 0, 0, 0, 0, 0] } = .error "Stack underflow" ∧
    vmStep (fun v => v) (some [111, 107])
      { stack := [[]], regs := [0, 1, 0, 0, 0], nextVariableId := 0,
        variableFromName := [], variableValues := [], character := 0,
        bc := [10, 0, 0, 0] } = .error "Stack underflow" ∧
    vmStep (fun v => v) none
      { stack := [[]], regs := [0, 1, 0, 0, 0], nextVariableId := 0,
        variableFromName := [], variableValues := [], character := 0,
        bc := [3, 0, 0, 0] } = .error "Stack underflow" :=
  ⟨rfl, rfl, rfl⟩

/-- C1 (code bug): `PickOption` ends with `stackPush(value)` where
`value` is the user's reply — the chosen KEY — while the looked-up
`result = opts.get(value)` (the associated value) is only used for
validation and never pushed.  Options `a "A"`, `b "B"` (stack, top
first: "b", "B", "a", "A"), user picks "a" (byte 97): the VM pushes
[97] ("a"), not [65] ("A"). -/
theorem pickOption_pushes_chosen_key :
    vmStep (fun v => v) (some [97])
      { stack := [[98], [66], [97], [65]], regs := [0, 4, 0, 4, 0],
        nextVariableId := 0, variableFromName := [], variableValues := [],
        character := 0, bc := [13, 0, 0, 0, 3] } =
      .ok (.next,
        { stack := [[97]], regs := [5, 1, 0, 4, 0], nextVariableId := 0,
          variableFromName := [], variableValues := [], character := 0,
          bc := [13, 0, 0, 0, 3] }) ∧
    ([97] : Str) ≠ [65] :=
  ⟨rfl, by decide⟩

/-! ## Stack-effect lemmas and C6 -/

theorem netEffect_append (a b : List IR) :
    netEffect (a ++ b) = match netEffect a, netEffect b with
      | some x, some y => some (x + y)
      | _, _ => none := by
  induction a with
  | nil => cases hb : netEffect b <;> simp [netEffect, hb]
  | cons op rest ih =>
    cases ha : irStackEffect op <;> cases hr : netEffect rest <;>
      cases hb : netEffect b <;>
      simp [netEffect, ha, hr, hb, ih, Int.add_assoc]

theorem wfContents_all (cs : List TNChild) (h : wfContents cs = true) :
    cs.all wfChild = true := by
  induction cs with
  | nil => simp [wfContents] at h
  | cons c rest ih =>
    cases rest with
    | nil => simp [wfContents] at h; simpa using h
    | cons d ds =>
      simp [wfContents] at h
      simp [h.1, ih h.2]

theorem script_effect_premise :
    ∀ (cs : List TNChild) (st : CompilerState) (ir : List IR)
      (st1 : CompilerState),
      compileTextNode cs st = (ir, st1) → TextNodeEffectP cs st →
      ScriptEffectP cs st := by
  intro cs st ir st1 heq hM hwf
  have h1 : netEffect ir = some 1 := by
    have := hM hwf
    rwa [heq] at this
  have hgoal : compileScript cs st = (ir ++ [.evaluateScript], st1) := by
    simp [compileScript, heq]
  rw [hgoal]
  simp [netEffect_append, h1, netEffect, irStackEffect]

theorem textNode_effect_premise :
    ∀ (cs : List TNChild) (st : CompilerState),
      GoEffectP cs true st → TextNodeEffectP cs st := by
  intro cs st hGo hwf
  have hgoal : compileTextNode cs st = compileTextNodeGo cs true st := by
    simp [compileTextNode]
  rw [hgoal]
  exact hGo.1 rfl hwf

theorem go_nil_premise :
    ∀ (flag : Bool) (st : CompilerState), GoEffectP [] flag st := by
  intro flag st
  constructor
  · intro _ hwf; simp [wfContents] at hwf
  · intro _ _; simp [compileTextNodeGo, netEffect]

theorem go_cons_premise :
    ∀ (flag : Bool) (st : CompilerState) (child : TNChild)
      (rest : List TNChild) (ir1 : List IR) (st1 : CompilerState),
      compileTextNodeChild child st = (ir1, st1) →
      ∀ (ir2 : List IR) (st2 : CompilerState),
      compileTextNodeGo rest false st1 = (ir2, st2) →
      ChildEffectP child st → GoEffectP rest false st1 →
      GoEffectP (child :: rest) flag st := by
  intro flag st child rest ir1 st1 heq1 ir2 st2 heq2 hChild hGo
  have hch : ∀ h, netEffect ir1 = some 1 := fun h => by
    have := hChild h; rwa [heq1] at this
  constructor
  · intro hflag hwf
    subst hflag
    have hgoal : compileTextNodeGo (child :: rest) true st = (ir1 ++ ir2, st2) := by
      simp [compileTextNodeGo, heq1, heq2]
    rw [hgoal]
    cases rest with
    | nil =>
      simp [wfContents] at hwf
      simp [compileTextNodeGo] at heq2
      obtain ⟨h21, h22⟩ := heq2
      subst h21
      simp [netEffect_append, hch hwf, netEffect]
    | cons d ds =>
      simp [wfContents] at hwf
      have h2 : netEffect ir2 = some 0 := by
        have := hGo.2 rfl (wfContents_all _ hwf.2)
        rwa [heq2] at this
      simp [netEffect_append, hch hwf.1, h2, netEffect]
  · intro hflag hall
    subst hflag
    have hgoal : compileTextNodeGo (child :: rest) false st =
        ((ir1 ++ [.concatenate]) ++ ir2, st2) := by
      simp [compileTextNodeGo, heq1, heq2]
    rw [hgoal]
    simp at hall
    have h2 : netEffect ir2 = some 0 := by
      have := hGo.2 rfl (by simpa using hall.2)
      rwa [heq2] at this
    simp [netEffect_append, hch hall.1, h2, netEffect, irStackEffect]

theorem child_script_premise :
    ∀ (st : CompilerState) (cs : List TNChild),
      ScriptEffectP cs st → ChildEffectP (TNChild.script cs) st := by
  intro st cs h hwf
  have hgoal : compileTextNodeChild (TNChild.script cs) st = compileScript cs st := by
    simp [compileTextNodeChild]
  rw [hgoal]
  exact h (by simpa [wfChild] using hwf)

theorem child_expr_premise :
    ∀ (st : CompilerState) (key : String) (id : ℕ) (st1 : CompilerState),
      getVariableId st key = (id, st1) → ChildEffectP (TNChild.expr key) st := by
  intro st key id st1 heq _
  simp [compileTextNodeChild, heq, netEffect, irStackEffect]

theorem child_str_premise :
    ∀ (st : CompilerState) (contents : String) (id : ℕ) (st1 : CompilerState),
      getStringId st contents = (id, st1) → ChildEffectP (TNChild.str contents) st := by
  intro st contents id st1 heq _
  simp [compileTextNodeChild, heq, netEffect, irStackEffect]

theorem child_text_premise :
    ∀ (st : CompilerState) (cs : List TNChild) (enclosed : Option Char),
      TextNodeEffectP cs st → ChildEffectP (TNChild.text cs enclosed) st := by
  intro st cs enclosed h hwf
  have hgoal : compileTextNodeChild (TNChild.text cs enclosed) st =
      compileTextNode cs st := by
    simp [compileTextNodeChild]
  rw [hgoal]
  exact h (by simpa [wfChild] using hwf)

/-- Core effect lemma: well-formed text-node contents compile to IR with
net stack effect exactly +1. -/
theorem compileTextNode_wf_effect (cs : List TNChild) (st : CompilerState)
    (h : wfContents cs = true) :
    netEffect (compileTextNode cs st).1 = some 1 :=
  compileTextNode.induct ScriptEffectP TextNodeEffectP GoEffectP ChildEffectP
    script_effect_premise textNode_effect_premise go_nil_premise
    go_cons_premise child_script_premise child_expr_premise
    child_str_premise child_text_premise cs st h

/-- C6 counterexample: an `AssignmentSelect` option whose prompt text
node is empty (producible from source text such as `$x ? a ""`) compiles
to IR with net stack effect +1, not +2. -/
theorem choiceValue_empty_prompt_effect_one :
    netEffect (compileChoiceValue
      { key := "a", prompt := { contents := [], enclosed := none } }
      createCompiler).1 = some 1 ∧
    (some 1 : Option Int) ≠ some 2 := by
  constructor
  · simp [compileChoiceValue, compileTextNode, compileTextNodeGo,
      getStringId, alGet, createCompiler, netEffect, irStackEffect]
  · decide

/-- C6 (amended): for every `AssignmentSelect` option whose prompt text
node is recursively non-empty, the compiled IR for that option (prompt
lowering followed by `ReadStr` of the option key) has net stack effect
exactly +2. -/
theorem choiceValue_wf_effect_two (v : ChoiceValueNode) (st : CompilerState)
    (h : wfContents v.prompt.contents = true) :
    netEffect (compileChoiceValue v st).1 = some 2 := by
  have hB := compileTextNode_wf_effect v.prompt.contents st h
  rcases heq : compileTextNode v.prompt.contents st with ⟨ir, st1⟩
  rw [heq] at hB
  simp at hB
  rcases hgs : getStringId st1 v.key with ⟨id, st2⟩
  have hgoal : compileChoiceValue v st = (ir ++ [.readStr id], st2) := by
    simp [compileChoiceValue, heq, hgs]
  rw [hgoal]
  simp [netEffect_append, hB, netEffect, irStackEffect]

/-- Witness for `choiceValue_wf_effect_two` at the option `a "A"`. -/
theorem choiceValue_wf_effect_two_witness :
    wfContents [TNChild.str "A"] = true ∧
    netEffect (compileChoiceValue
      { key := "a", prompt := { contents := [TNChild.str "A"], enclosed := none } }
      createCompiler).1 = some 2 :=
  ⟨by simp [wfContents, wfChild],
    choiceValue_wf_effect_two _ _ (by simp [wfContents, wfChild])⟩

/-! ## Encoder patch-recording lemmas and C3 -/

theorem emitCode_subs (ir : List IR) :
    ∀ e : EncSt,
      (emitCode ir e).stringSubs = e.stringSubs ++ codeStringSubs ir e.current ∧
      (emitCode ir e).charSubs = e.charSubs ++ codeCharSubs ir e.current ∧
      (emitCode ir e).labelSubs = e.labelSubs ++ codeLabelSubs ir e.current ∧
      (emitCode ir e).varSubs = e.varSubs ++ codeVarSubs ir e.current := by
  have harith : ∀ n : Nat, n + 8 - 4 = n + 4 := by omega
  induction ir with
  | nil =>
    intro e
    simp [emitCode, codeStringSubs, codeCharSubs, codeLabelSubs, codeVarSubs]
  | cons op rest ih =>
    intro e
    have hstep : emitCode (op :: rest) e = emitCode rest (emitOne op e) := rfl
    obtain ⟨ihs, ihc, ihl, ihv⟩ := ih (emitOne op e)
    rw [hstep]
    cases op <;>
      simp [emitOne, pushBytecode, operandOp, operandOp8, le4, instrLen,
        codeStringSubs, codeCharSubs, codeLabelSubs, codeVarSubs,
        harith, ihs, ihc, ihl, ihv] at ihs ihc ihl ihv ⊢ <;>
      simp [ihs, ihc, ihl, ihv]

theorem foldl_headerVarStep (l : List (String × Nat)) :
    ∀ e : EncSt,
      (l.foldl headerVarStep e).varSubs =
        e.varSubs ++ headerVarSubsFrom l e.current ∧
      (l.foldl headerVarStep e).current = e.current + 8 * l.length ∧
      (l.foldl headerVarStep e).labelSubs = e.labelSubs ∧
      (l.foldl headerVarStep e).stringSubs = e.stringSubs ∧
      (l.foldl headerVarStep e).charSubs = e.charSubs := by
  induction l with
  | nil => intro e; simp [headerVarSubsFrom]
  | cons p rest ih =>
    intro e
    have hfold : (p :: rest).foldl headerVarStep e =
        rest.foldl headerVarStep (headerVarStep e p) := rfl
    obtain ⟨ihv, ihcur, ihl, ihs, ihc⟩ := ih (headerVarStep e p)
    have harith : e.current + 8 - 4 = e.current + 4 := by omega
    have hv : (headerVarStep e p).varSubs = e.varSubs ++ [(p.2, e.current + 4)] := by
      simp [headerVarStep, pushBytecode, operandOp, le4, harith]
    have hcur : (headerVarStep e p).current = e.current + 8 := by
      simp [headerVarStep, pushBytecode, operandOp, le4]
    have hl2 : (headerVarStep e p).labelSubs = e.labelSubs := by
      simp [headerVarStep, pushBytecode]
    have hs2 : (headerVarStep e p).stringSubs = e.stringSubs := by
      simp [headerVarStep, pushBytecode]
    have hc2 : (headerVarStep e p).charSubs = e.charSubs := by
      simp [headerVarStep, pushBytecode]
    refine ⟨?_, ?_, ?_, ?_, ?_⟩
    · rw [hfold, ihv, hv, hcur]; simp [headerVarSubsFrom]
    · rw [hfold, ihcur, hcur]; simp; ring
    · rw [hfold, ihl, hl2]
    · rw [hfold, ihs, hs2]
    · rw [hfold, ihc, hc2]

theorem foldl_symVarStep (l : List (String × Nat)) :
    ∀ e : EncSt,
      (l.foldl symVarStep e).varSubs = e.varSubs ∧
      (l.foldl symVarStep e).labelSubs = e.labelSubs ∧
      (l.foldl symVarStep e).stringSubs = e.stringSubs ∧
      (l.foldl symVarStep e).charSubs = e.charSubs := by
  induction l with
  | nil => intro e; simp
  | cons p rest ih =>
    intro e
    have hfold : (p :: rest).foldl symVarStep e =
        rest.foldl symVarStep (symVarStep e p) := rfl
    obtain ⟨ihv, ihl, ihs, ihc⟩ := ih (symVarStep e p)
    exact ⟨by rw [hfold, ihv]; simp [symVarStep, pushBytecode],
      by rw [hfold, ihl]; simp [symVarStep, pushBytecode],
      by rw [hfold, ihs]; simp [symVarStep, pushBytecode],
      by rw [hfold, ihc]; simp [symVarStep, pushBytecode]⟩

theorem foldl_symStringStep (l : List (String × Nat)) :
    ∀ e : EncSt,
      (l.foldl symStringStep e).varSubs = e.varSubs ∧
      (l.foldl symStringStep e).labelSubs = e.labelSubs ∧
      (l.foldl symStringStep e).stringSubs = e.stringSubs ∧
      (l.foldl symStringStep e).charSubs = e.charSubs := by
  induction l with
  | nil => intro e; simp
  | cons p rest ih =>
    intro e
    have hfold : (p :: rest).foldl symStringStep e =
        rest.foldl symStringStep (symStringStep e p) := rfl
    obtain ⟨ihv, ihl, ihs, ihc⟩ := ih (symStringStep e p)
    exact ⟨by rw [hfold, ihv]; simp [symStringStep, pushBytecode],
      by rw [hfold, ihl]; simp [symStringStep, pushBytecode],
      by rw [hfold, ihs]; simp [symStringStep, pushBytecode],
      by rw [hfold, ihc]; simp [symStringStep, pushBytecode]⟩

theorem foldl_symCharStep (l : List (String × Nat)) :
    ∀ e : EncSt,
      (l.foldl symCharStep e).varSubs = e.varSubs ∧
      (l.foldl symCharStep e).labelSubs = e.labelSubs ∧
      (l.foldl symCharStep e).stringSubs = e.stringSubs ∧
      (l.foldl symCharStep e).charSubs = e.charSubs := by
  induction l with
  | nil => intro e; simp
  | cons p rest ih =>
    intro e
    have hfold : (p :: rest).foldl symCharStep e =
        rest.foldl symCharStep (symCharStep e p) := rfl
    obtain ⟨ihv, ihl, ihs, ihc⟩ := ih (symCharStep e p)
    exact ⟨by rw [hfold, ihv]; simp [symCharStep, pushBytecode],
      by rw [hfold, ihl]; simp [symCharStep, pushBytecode],
      by rw [hfold, ihs]; simp [symCharStep, pushBytecode],
      by rw [hfold, ihc]; simp [symCharStep, pushBytecode]⟩

theorem headerJumpStep_subs (e : EncSt) :
    (headerJumpStep e).varSubs = e.varSubs ∧
    (headerJumpStep e).stringSubs = e.stringSubs ∧
    (headerJumpStep e).charSubs = e.charSubs ∧
    (headerJumpStep e).labelSubs = e.labelSubs ++ [(0, e.current + 4)] := by
  have harith : e.current + 8 - 4 = e.current + 4 := by omega
  exact ⟨rfl, rfl, rfl, by
    simp [headerJumpStep, pushBytecode, operandOp, le4, harith]⟩

theorem encodeHeader_subs (st : CompilerState) :
    (encodeHeader st).stringSubs = [] ∧
    (encodeHeader st).charSubs = [] ∧
    (encodeHeader st).labelSubs =
      [(0, 8 * (orderedVariables st).length + 4)] ∧
    (encodeHeader st).varSubs = headerVarSubsFrom (orderedVariables st) 0 := by
  obtain ⟨h1v, h1cur, h1l, h1s, h1c⟩ :=
    foldl_headerVarStep (orderedVariables st) EncSt.empty
  obtain ⟨h2v, h2s, h2c, h2l⟩ := headerJumpStep_subs
    ((orderedVariables st).foldl headerVarStep EncSt.empty)
  obtain ⟨h3v, h3l, h3s, h3c⟩ := foldl_symVarStep (orderedVariables st)
    (headerJumpStep ((orderedVariables st).foldl headerVarStep EncSt.empty))
  obtain ⟨h4v, h4l, h4s, h4c⟩ := foldl_symStringStep st.strings
    ((orderedVariables st).foldl symVarStep
      (headerJumpStep ((orderedVariables st).foldl headerVarStep EncSt.empty)))
  obtain ⟨h5v, h5l, h5s, h5c⟩ := foldl_symCharStep st.characters
    (st.strings.foldl symStringStep
      ((orderedVariables st).foldl symVarStep
        (headerJumpStep ((orderedVariables st).foldl headerVarStep EncSt.empty))))
  refine ⟨?_, ?_, ?_, ?_⟩
  · rw [encodeHeader, h5s, h4s, h3s, h2s, h1s]; rfl
  · rw [encodeHeader, h5c, h4c, h3c, h2c, h1c]; rfl
  · rw [encodeHeader, h5l, h4l, h3l, h2l, h1l, h1cur]
    simp [EncSt.empty]
  · rw [encodeHeader, h5v, h4v, h3v, h2v, h1v]
    simp [EncSt.empty]

/-- C3 (amended): the encoder records a (referenced-id,
operand-byte-offset) pending patch for every operand of `ReadStr`
(string id), `SetCharacter` (character id), `Jump` (label id) and
`SetVariableName` (variable id), both in the header and in the code
region — and for nothing else: the recorded patch lists are exactly the
lists enumerated by `codeStringSubs`/`codeCharSubs`/`codeLabelSubs`/
`codeVarSubs` and `headerVarSubsFrom`, which contain no entry for any
`ReadVariable` or `SetVariable` operand; those two operands are written
directly as the raw variable id. -/
theorem encoder_patch_characterization (ir : List IR) (st : CompilerState) :
    (compileBytecodeFull ir st).stringSubs =
      codeStringSubs ir (encodeHeader st).current ∧
    (compileBytecodeFull ir st).charSubs =
      codeCharSubs ir (encodeHeader st).current ∧
    (compileBytecodeFull ir st).labelSubs =
      (0, 8 * (orderedVariables st).length + 4) ::
        codeLabelSubs ir (encodeHeader st).current ∧
    (compileBytecodeFull ir st).varSubs =
      headerVarSubsFrom (orderedVariables st) 0 ++
        codeVarSubs ir (encodeHeader st).current := by
  obtain ⟨hs, hc, hl, hv⟩ := emitCode_subs ir (encodeHeader st)
  obtain ⟨hhs, hhc, hhl, hhv⟩ := encodeHeader_subs st
  exact ⟨by simp [compileBytecodeFull, hs, hhs],
    by simp [compileBytecodeFull, hc, hhc],
    by simp [compileBytecodeFull, hl, hhl],
    by simp [compileBytecodeFull, hv, hhv]⟩

/-- C3 counterexample: encoding `[Label 0, ReadVariable 0, EndOfScript]`
with one declared variable `x` (id 0).  The final buffer holds the RAW
id 0 at the `ReadVariable` operand offset 22, even though the
variable's resolved symbol-table offset is 16; the only variable patch
recorded is the header's `SetVariableName` placeholder at offset 4 —
`ReadVariable`'s operand is never recorded as a pending patch nor
resolved in pass 2, contradicting the claim. -/
theorem readVariable_operand_written_raw :
    compileBytecode [.label 0, .readVariable 0, .endOfScript]
      { characterIdNext := 0, characters := [], stringIdNext := 0,
        strings := [], variableIdNext := 1, variableTable := [("x", 0)] } =
      .ok [6, 0, 0, 0, 16, 0, 0, 0, 7, 0, 0, 0, 18, 0, 0, 0, 120, 0,
        5, 0, 0, 0, 0, 0, 0, 0, 8, 0, 0, 0] ∧
    byte32 [6, 0, 0, 0, 16, 0, 0, 0, 7, 0, 0, 0, 18, 0, 0, 0, 120, 0,
        5, 0, 0, 0, 0, 0, 0, 0, 8, 0, 0, 0] 22 = some 0 ∧
    alGet (EncSt.variableLabels
      (compileBytecodeFull [.label 0, .readVariable 0, .endOfScript]
        { characterIdNext := 0, characters := [], stringIdNext := 0,
          strings := [], variableIdNext := 1, variableTable := [("x", 0)] }))
      0 = some 16 ∧
    EncSt.varSubs
      (compileBytecodeFull [.label 0, .readVariable 0, .endOfScript]
        { characterIdNext := 0, characters := [], stringIdNext := 0,
          strings := [], variableIdNext := 1, variableTable := [("x", 0)] })
      = [(0, 4)] ∧
    (0 : Nat) ≠ 16 :=
  ⟨rfl, rfl, rfl, rfl, by decide⟩

/-! ## C7: Concatenate order -/

/-- C7: `Concatenate` pops b (top), pops a, and pushes `a ++ b` — the
original left-to-right order despite LIFO pops; compiling a text node
with two literal children A and B yields `[ReadStr A, ReadStr B,
Concatenate]`; and the full pipeline on a dialogue with literal
children "A", "B" renders the bytes of "AB", not "BA". -/
theorem concatenate_preserves_order :
    (∀ (f : Str → Str) (r : Option Str) (s s₁ : VMState) (a b : Str)
      (rest : List Str),
      read32 s = .ok (4, s₁) → s₁.stack = b :: a :: rest →
      vmStep f r s = .ok (.next, stackPush (a ++ b)
        (stackPop (stackPop s₁).2).2)) ∧
    (∀ (A B : String) (st : CompilerState),
      (compileTextNode [.str A, .str B] st).1 =
        [.readStr (getStringId st A).1,
         .readStr (getStringId (getStringId st A).2 B).1, .concatenate]) ∧
    (compileIR
        { contents := [.dialogue none
          { contents := [.str "A", .str "B"], enclosed := none }] }
        createCompiler =
      ([.label 0, .readStr 0, .readStr 1, .concatenate,
        .showDialogue none, .endOfScript],
       { characterIdNext := 0, characters := [], stringIdNext := 2,
         strings := [("A", 0), ("B", 1)], variableIdNext := 0,
         variableTable := [] }) ∧
     compileBytecode
        [.label 0, .readStr 0, .readStr 1, .concatenate,
         .showDialogue none, .endOfScript]
        { characterIdNext := 0, characters := [], stringIdNext := 2,
          strings := [("A", 0), ("B", 1)], variableIdNext := 0,
          variableTable := [] } =
      .ok [7, 0, 0, 0, 12, 0, 0, 0, 65, 0, 66, 0, 0, 0, 0, 0,
        8, 0, 0, 0, 0, 0, 0, 0, 10, 0, 0, 0, 4, 0, 0, 0,
        2, 0, 0, 0, 0, 0, 0, 0, 8, 0, 0, 0] ∧
     vmRun 10 (fun v => v) []
        (createVM [7, 0, 0, 0, 12, 0, 0, 0, 65, 0, 66, 0, 0, 0, 0, 0,
          8, 0, 0, 0, 0, 0, 0, 0, 10, 0, 0, 0, 4, 0, 0, 0,
          2, 0, 0, 0, 0, 0, 0, 0, 8, 0, 0, 0]) =
      .ok (.yielded [7] [65, 66],
        { stack := [], regs := [40, 0, 0, 0, 0], nextVariableId := 0,
          variableFromName := [], variableValues := [], character := 0,
          bc := [7, 0, 0, 0, 12, 0, 0, 0, 65, 0, 66, 0, 0, 0, 0, 0,
            8, 0, 0, 0, 0, 0, 0, 0, 10, 0, 0, 0, 4, 0, 0, 0,
            2, 0, 0, 0, 0, 0, 0, 0, 8, 0, 0, 0] }) ∧
     ([65, 66] : Str) = stringData "AB" ∧
     ([65, 66] : Str) ≠ stringData "BA") := by
  refine ⟨?_, ?_, ?_, rfl, rfl, rfl, by decide⟩
  · intro f r s s₁ a b rest h1 hst
    simp [vmStep, h1, OPCODE_TO_IROp, Bind.bind, Except.bind, hst, stackPop]
  · intro A B st
    rcases hA : getStringId st A with ⟨idA, st1⟩
    rcases hB : getStringId st1 B with ⟨idB, st2⟩
    simp [compileTextNode, compileTextNodeGo, compileTextNodeChild, hA, hB]
  · simp [compileIR, compileDialogue, compileTextNode, compileTextNodeGo,
      compileTextNodeChild, getStringId, alGet, alSet, createCompiler]

/-- Witness for the first part of `concatenate_preserves_order`: with
"A" then "B" pushed (stack top-first: [66], [65]), Concatenate pushes
[65, 66] ("AB"). -/
theorem concatenate_preserves_order_witness :
    vmStep (fun v => v) none
      { stack := [[66], [65]], regs := [0, 2, 0, 0, 0], nextVariableId := 0,
        variableFromName := [], variableValues := [], character := 0,
        bc := [4, 0, 0, 0] } =
      .ok (.next, stackPush ([65] ++ [66])
        (stackPop (stackPop
          { stack := [[66], [65]], regs := [4, 2, 0, 0, 0], nextVariableId := 0,
            variableFromName := [], variableValues := [], character := 0,
            bc := ([4, 0, 0, 0] : List Nat) }).2).2) :=
  concatenate_preserves_order.1 (fun v => v) none
    { stack := [[66], [65]], regs := [0, 2, 0, 0, 0], nextVariableId := 0,
      variableFromName := [], variableValues := [], character := 0,
      bc := [4, 0, 0, 0] }
    { stack := [[66], [65]], regs := [4, 2, 0, 0, 0], nextVariableId := 0,
      variableFromName := [], variableValues := [], character := 0,
      bc := [4, 0, 0, 0] }
    [65] [66] [] rfl rfl

/-! ## Lexer theorems: C2 and C5 -/

/-- C2 (code bug): the snapshot mechanism fails once TWO `next()` calls
happen after `pushCurrent()` — each token read `shift()`s the FIRST
cursor off the stack, so the second read consumes the snapshot cursor
itself, and `popCurrent()` leaves the stream one token too far ahead.
On `"a b c"`: the unspoiled stream after the snapshot is
`a, ␣, b, …`; after `pushCurrent; next; next; popCurrent` the stream
yields `a, b, ␣, …` — the whitespace between `a` and `b` is replayed in
the wrong place and the streams diverge, where the claim requires them
identical. -/
theorem popCurrent_fails_to_rewind :
    tokensFrom ((lex "a b c").pushCurrent) 3 =
      [some (.word "a"), some (.whitespace " "), some (.word "b")] ∧
    tokensFrom ((((((lex "a b c").pushCurrent).next).2).next).2).popCurrent 3 =
      [some (.word "a"), some (.word "b"), some (.whitespace " ")] ∧
    tokensFrom ((((((lex "a b c").pushCurrent).next).2).next).2).popCurrent 3 ≠
      tokensFrom ((lex "a b c").pushCurrent) 3 :=
  ⟨rfl, rfl, by decide⟩

/-- C5 counterexample: after `ScriptEnd` is yielded once, the next
`next()` returns the generator's exhausted result (`undefined` value),
not `ScriptEnd` again. -/
theorem scriptEnd_not_repeatable :
    (nextIter (lex "") 0).1 = some .scriptEnd ∧
    (nextIter (lex "") 1).1 = none ∧
    (none : Option Token) ≠ some .scriptEnd :=
  ⟨rfl, rfl, by decide⟩

theorem genNext_scriptEnd_finished (g : GenState) :
    (genNext g).1 = some .scriptEnd → (genNext g).2.finished = true := by
  unfold genNext
  by_cases h : g.finished
  · simp [h]
  · rcases hgt : getNextToken g.lexer with ⟨t, lx⟩
    simp [h, hgt]

/-- Invariant of reachable lex objects: a `ScriptEnd` sitting in the
lookahead means the generator has already broken. -/
def LexInv (l : LexObj) : Prop :=
  l.peaked = some Token.scriptEnd → l.gen.finished = true

theorem lexInv_init (input : String) : LexInv (lex input) := by
  intro hp
  have hfin := genNext_scriptEnd_finished
    { lexer := createLexer input, finished := false }
  rcases hg : genNext { lexer := createLexer input, finished := false }
    with ⟨p, gen⟩
  rw [hg] at hfin
  simp only [lex, hg] at hp ⊢
  exact hfin hp

theorem lexInv_next (l : LexObj) : LexInv l → LexInv (l.next).2 := by
  intro _ hp
  have hfin := genNext_scriptEnd_finished l.gen
  rcases hg : genNext l.gen with ⟨p, gen⟩
  rw [hg] at hfin
  simp only [LexObj.next, hg] at hp ⊢
  exact hfin hp

theorem genNext_finished (g : GenState) (h : g.finished = true) :
    genNext g = (none, g) := by
  simp [genNext, h]

theorem next_after_scriptEnd (l : LexObj) (h : LexInv l)
    (hres : (l.next).1 = some .scriptEnd) :
    (l.next).2.peaked = none ∧ (l.next).2.gen.finished = true := by
  have hp : l.peaked = some Token.scriptEnd := hres
  have hfin := h hp
  simp [LexObj.next, genNext_finished l.gen hfin, hfin]

theorem nextIter_exhausted (k : Nat) :
    ∀ l : LexObj, l.gen.finished = true → l.peaked = none →
      (nextIter l k).1 = none := by
  induction k with
  | zero =>
    intro l h1 h2
    simp [nextIter, LexObj.next, genNext_finished l.gen h1, h2]
  | succ k ih =>
    intro l h1 h2
    have hstep : nextIter l (k + 1) = nextIter (l.next).2 k := rfl
    rw [hstep]
    exact ih (l.next).2
      (by simp [LexObj.next, genNext_finished l.gen h1, h1])
      (by simp [LexObj.next, genNext_finished l.gen h1])

theorem nextIter_scriptEnd_terminal :
    ∀ (n : Nat) (l : LexObj), LexInv l →
      ∀ k, (nextIter l n).1 = some .scriptEnd →
        (nextIter l (n + k + 1)).1 = none := by
  intro n
  induction n with
  | zero =>
    intro l hinv k hres
    obtain ⟨hp, hf⟩ := next_after_scriptEnd l hinv hres
    have harith : 0 + k + 1 = k + 1 := by omega
    rw [harith]
    exact nextIter_exhausted k (l.next).2 hf hp
  | succ n ih =>
    intro l hinv k hres
    have harith : n + 1 + k + 1 = (n + k + 1) + 1 := by omega
    rw [harith]
    have hstep : nextIter l ((n + k + 1) + 1) = nextIter (l.next).2 (n + k + 1) := rfl
    rw [hstep]
    exact ih (l.next).2 (lexInv_next l hinv) k hres

/-- C5 (amended): `getNextToken` itself is idempotent at end of input
(always returning `ScriptEnd`), but the generator breaks after yielding
`ScriptEnd` once, so on the stream produced by `lex` every `next()`
call after the one that returned `ScriptEnd` yields the exhausted
(`undefined`) result, not `ScriptEnd` again. -/
theorem scriptEnd_yielded_once :
    (∀ st : LexerState, lexIsEOF st = true → getNextToken st = (.scriptEnd, st)) ∧
    (∀ (input : String) (n k : Nat),
      (nextIter (lex input) n).1 = some .scriptEnd →
      (nextIter (lex input) (n + k + 1)).1 = none) :=
  ⟨fun st h => by simp [getNextToken, h],
   fun input n k hres =>
    nextIter_scriptEnd_terminal n (lex input) (lexInv_init input) k hres⟩

/-- Witness for `scriptEnd_yielded_once` on the empty input: the first
`next()` yields `ScriptEnd`, the second yields the exhausted result. -/
theorem scriptEnd_yielded_once_witness :
    lexIsEOF (createLexer "") = true ∧
    getNextToken (createLexer "") = (.scriptEnd, createLexer "") ∧
    (nextIter (lex "") 0).1 = some .scriptEnd ∧
    (nextIter (lex "") (0 + 0 + 1)).1 = none :=
  ⟨rfl, scriptEnd_yielded_once.1 (createLexer "") rfl, rfl,
    scriptEnd_yielded_once.2 "" 0 0 rfl⟩

/-! ## Parser lemmas for C9 -/

theorem pushChild_expr_head (children : List TNChild) (child : TNChild)
    (k : String) (h : children.head? = some (.expr k)) :
    (pushChild children child).head? = some (.expr k) := by
  unfold pushChild
  rcases children with _ | ⟨c0, rest⟩
  · simp at h
  · simp at h
    subst h
    split
    · rename_i s s2 heq
      rcases rest with _ | ⟨c1, rest⟩
      · simp at heq
      · rw [List.head?_append]
        simp
    · simp

theorem parseTNCLoop_head (k : String) :
    ∀ (fuel : Nat) (children : List TNChild) (ignoreCount : Nat)
      (cur : Option Token) (ee istart : Option Char) (l : LexObj)
      (res : List TNChild) (l' : LexObj),
      children.head? = some (.expr k) →
      parseTNCLoop fuel children ignoreCount cur ee istart l = .ok (res, l') →
      res.head? = some (.expr k) := by
  intro fuel
  induction fuel with
  | zero =>
    intro children _ cur ee istart l res l' hh h
    simp [parseTNCLoop] at h
  | succ fuel ih =>
    intro children ignoreCount cur ee istart l res l' hh h
    rw [parseTNCLoop.eq_def] at h
    rcases cur with _ | t
    · simp at h
      rw [← h.1]
      exact hh
    · simp only [] at h
      split at h
      · simp at h
        rw [← h.1]
        exact hh
      · cases t with
        | word txt =>
          simp only [] at h
          rcases hs : parseString fuel l (.word txt) with e | ⟨child, l₂⟩ <;>
            rw [hs] at h <;> simp at h
          exact ih _ _ _ _ _ _ _ _ (pushChild_expr_head children child k hh) h
        | specialCharacter ch =>
          simp only [] at h
          by_cases hch : ch = '\\'
          · simp only [hch, if_pos rfl] at h
            rcases hs : parseEscapedCharacter l (.specialCharacter '\\')
              with e | ⟨child, l₂⟩ <;> rw [hs] at h <;> simp at h
            exact ih _ _ _ _ _ _ _ _ (pushChild_expr_head children child k hh) h
          · rw [if_neg hch] at h
            exact ih _ _ _ _ _ _ _ _
              (pushChild_expr_head children (.str (String.singleton ch)) k hh) h
        | enclosedTextIndicator ch =>
          simp only [] at h
          by_cases hee : some ch = ee
          · rw [if_pos hee] at h
            by_cases hic : ignoreCount > 0
            · rw [if_pos hic] at h
              exact ih _ _ _ _ _ _ _ _
                (pushChild_expr_head children (.str (String.singleton ch)) k hh) h
            · rw [if_neg hic] at h
              simp at h
              rw [← h.1]
              exact hh
          · rw [if_neg hee] at h
            by_cases his : some ch = istart
            · rw [if_pos his] at h
              exact ih _ _ _ _ _ _ _ _
                (pushChild_expr_head children (.str (String.singleton ch)) k hh) h
            · rw [if_neg his] at h
              rcases hs : parseEnclosedTextNode fuel l (.enclosedTextIndicator ch) true
                with e | ⟨child, l₂⟩ <;> rw [hs] at h <;> simp at h
              exact ih _ _ _ _ _ _ _ _ (pushChild_expr_head children child k hh) h
        | whitespace txt =>
          simp only [] at h
          exact ih _ _ _ _ _ _ _ _
            (pushChild_expr_head children (.str txt) k hh) h
        | varTok nm =>
          simp only [] at h
          rcases hs : parseExpression l (.varTok nm) with e | ⟨child, l₂⟩ <;>
            rw [hs] at h <;> simp at h
          exact ih _ _ _ _ _ _ _ _ (pushChild_expr_head children child k hh) h
        | newLine =>
          simp only [] at h
          exact ih _ _ _ _ _ _ _ _
            (pushChild_expr_head children (.str "\n") k hh) h
        | scriptEnd =>
          simp at h
          rw [← h.1]
          exact hh

theorem parseTextNodeChildren_varTok (fuel : Nat) (l : LexObj) (name : String)
    (children : List TNChild) (l' : LexObj)
    (h : parseTextNodeChildren fuel l (some (.varTok name)) none none 0 =
      .ok (children, l')) :
    children.head? = some (.expr name) := by
  cases fuel with
  | zero => simp [parseTextNodeChildren] at h
  | succ fuel =>
    rw [parseTextNodeChildren.eq_def] at h
    simp only [] at h
    cases fuel with
    | zero => simp [parseTNCLoop] at h
    | succ fuel =>
      rw [parseTNCLoop.eq_def] at h
      simp only [parseExpression] at h
      simp at h
      have hpc : pushChild [] (TNChild.expr name) = [TNChild.expr name] := rfl
      rw [hpc] at h
      exact parseTNCLoop_head name _ [TNChild.expr name] _ _ _ _ _ _ _ rfl h

theorem parseTextNode_varTok (fuel : Nat) (l : LexObj) (name : String)
    (tn : TextNodeS) (l' : LexObj)
    (h : parseTextNode fuel l (.varTok name) = .ok (tn, l')) :
    tn.contents.head? = some (.expr name) := by
  unfold parseTextNode at h
  rcases hc : parseTextNodeChildren fuel l (some (.varTok name)) none none 0
    with e | ⟨children, l₂⟩ <;> rw [hc] at h <;> simp at h
  rw [← h.1]
  exact parseTextNodeChildren_varTok fuel l name children l₂ hc

theorem parseDialogue_varTok (fuel : Nat) (l : LexObj) (name : String)
    (sp : Option String) (tn : TextNodeS) (l' : LexObj)
    (h : parseDialogue fuel l (.varTok name) = .ok ((sp, tn), l')) :
    sp = none ∧ tn.contents.head? = some (.expr name) := by
  unfold parseDialogue at h
  rcases hp : parseTextNode fuel l (.varTok name) with e | ⟨contents, l₂⟩ <;>
    rw [hp] at h <;> simp at h
  refine ⟨h.1.1.symm, ?_⟩
  rw [← h.1.2]
  exact parseTextNode_varTok fuel l name contents l₂ hp

/-! ### Observational correspondence: `pushCurrent` does not change
which tokens `next()` yields -/

/-- Two lex objects that produce the same token stream: equal lookahead
and generator flag, and lexers with the same input and the same current
(last) cursor on non-empty cursor stacks.  Token reads depend only on
those components. -/
def ObsRel (l₁ l₂ : LexObj) : Prop :=
  l₁.gen.lexer.cursorStack ≠ [] ∧
  l₂.gen.lexer.cursorStack ≠ [] ∧
  currentCursor l₂.gen.lexer = currentCursor l₁.gen.lexer ∧
  l₂.gen.lexer.input = l₁.gen.lexer.input ∧
  l₂.gen.finished = l₁.gen.finished ∧
  l₂.peaked = l₁.peaked

theorem getLastD_concat (xs : List ScriptCursor) (a d : ScriptCursor) :
    (xs ++ [a]).getLastD d = a := by
  induction xs with
  | nil => rfl
  | cons x rest ih => simp [List.getLastD, ih]

theorem finishRead_facts (st : LexerState) (nb : ScriptCursor)
    (h : st.cursorStack ≠ []) :
    currentCursor (finishRead st nb) = nb ∧
    (finishRead st nb).cursorStack ≠ [] ∧
    (finishRead st nb).input = st.input := by
  rcases hcs : st.cursorStack with _ | ⟨x, xs⟩
  · exact absurd hcs h
  · refine ⟨?_, ?_, rfl⟩
    · simp [finishRead, currentCursor, hcs, getLastD_concat]
    · simp [finishRead, hcs]

theorem generic_read_obs (tokFn : ScriptCursor → List Char → Token)
    (backFn : ScriptCursor → List Char → ScriptCursor)
    (st₁ st₂ : LexerState) (h₁ : st₁.cursorStack ≠ [])
    (h₂ : st₂.cursorStack ≠ [])
    (hb : currentCursor st₂ = currentCursor st₁)
    (hi : st₂.input = st₁.input) :
    tokFn (currentCursor st₂) st₂.input = tokFn (currentCursor st₁) st₁.input ∧
    currentCursor (finishRead st₂ (backFn (currentCursor st₂) st₂.input)) =
      currentCursor (finishRead st₁ (backFn (currentCursor st₁) st₁.input)) ∧
    (finishRead st₁ (backFn (currentCursor st₁) st₁.input)).cursorStack ≠ [] ∧
    (finishRead st₂ (backFn (currentCursor st₂) st₂.input)).cursorStack ≠ [] ∧
    (finishRead st₂ (backFn (currentCursor st₂) st₂.input)).input =
      (finishRead st₁ (backFn (currentCursor st₁) st₁.input)).input := by
  obtain ⟨hb₁, hne₁, hin₁⟩ := finishRead_facts st₁ (backFn (currentCursor st₁) st₁.input) h₁
  obtain ⟨hb₂, hne₂, hin₂⟩ := finishRead_facts st₂ (backFn (currentCursor st₂) st₂.input) h₂
  refine ⟨?_, ?_, hne₁, hne₂, ?_⟩
  · rw [hb, hi]
  · rw [hb₂, hb₁, hb, hi]
  · rw [hin₂, hin₁, hi]

set_option maxHeartbeats 2000000 in
theorem getNextToken_obs (st₁ st₂ : LexerState) (h₁ : st₁.cursorStack ≠ [])
    (h₂ : st₂.cursorStack ≠ [])
    (hb : currentCursor st₂ = currentCursor st₁)
    (hi : st₂.input = st₁.input) :
    (getNextToken st₂).1 = (getNextToken st₁).1 ∧
    currentCursor (getNextToken st₂).2 = currentCursor (getNextToken st₁).2 ∧
    (getNextToken st₁).2.cursorStack ≠ [] ∧
    (getNextToken st₂).2.cursorStack ≠ [] ∧
    (getNextToken st₂).2.input = (getNextToken st₁).2.input := by
  have hcc : currentChar st₂ = currentChar st₁ := by
    simp [currentChar, hb, hi]
  have heof : lexIsEOF st₂ = lexIsEOF st₁ := by
    simp [lexIsEOF, hb, hi]
  unfold getNextToken
  rw [hcc, heof]
  by_cases he : lexIsEOF st₁ = true
  · rw [if_pos he, if_pos he]
    exact ⟨rfl, hb, h₁, h₂, hi⟩
  · rw [if_neg he, if_neg he]
    have hword := generic_read_obs
      (fun b i => .word ⟨(i.drop b.index).takeWhile (fun c => !isTextTerminator c)⟩)
      (fun b i => ((i.drop b.index).takeWhile (fun c => !isTextTerminator c)).foldl
        advanceCursorChar b)
      st₁ st₂ h₁ h₂ hb hi
    rcases hch : currentChar st₁ with _ | c
    · exact hword
    · simp only []
      by_cases hw : isWhitespaceChar c = true
      · rw [if_pos hw, if_pos hw]
        exact generic_read_obs
          (fun b i => .whitespace ⟨(i.drop b.index).takeWhile isWhitespaceChar⟩)
          (fun b i => ((i.drop b.index).takeWhile isWhitespaceChar).foldl
            advanceCursorChar b)
          st₁ st₂ h₁ h₂ hb hi
      · rw [if_neg hw, if_neg hw]
        by_cases hn : c = '\n'
        · rw [if_pos hn, if_pos hn]
          exact generic_read_obs (fun _ _ => .newLine)
            (fun b i => match i.get? b.index with
              | some ch => advanceCursorChar b ch
              | none => { b with index := b.index + 1, column := b.column + 1 })
            st₁ st₂ h₁ h₂ hb hi
        · rw [if_neg hn, if_neg hn]
          by_cases henc : isEnclosureChar c = true
          · rw [if_pos henc, if_pos henc]
            exact generic_read_obs
              (fun b i => .enclosedTextIndicator ((i.get? b.index).getD ' '))
              (fun b i => advanceCursorChar b ((i.get? b.index).getD ' '))
              st₁ st₂ h₁ h₂ hb hi
          · rw [if_neg henc, if_neg henc]
            by_cases hsp : isSpecialChar c = true
            · rw [if_pos hsp, if_pos hsp]
              exact generic_read_obs
                (fun b i => .specialCharacter ((i.get? b.index).getD ' '))
                (fun b i => advanceCursorChar b ((i.get? b.index).getD ' '))
                st₁ st₂ h₁ h₂ hb hi
            · rw [if_neg hsp, if_neg hsp]
              by_cases hd : c = '$'
              · rw [if_pos hd, if_pos hd]
                exact generic_read_obs
                  (fun b i => .varTok ⟨(i.drop (b.index + 1)).takeWhile isAlphaNum⟩)
                  (fun b i => ((i.drop (b.index + 1)).takeWhile isAlphaNum).foldl
                    advanceCursorChar (advanceCursorChar b '$'))
                  st₁ st₂ h₁ h₂ hb hi
              · rw [if_neg hd, if_neg hd]
                exact hword

theorem ObsRel_next (l₁ l₂ : LexObj) (h : ObsRel l₁ l₂) :
    (l₂.next).1 = (l₁.next).1 ∧ ObsRel (l₁.next).2 (l₂.next).2 := by
  obtain ⟨hne₁, hne₂, hb, hi, hf, hp⟩ := h
  by_cases hfin : l₁.gen.finished = true
  · have hfin₂ : l₂.gen.finished = true := by rw [hf]; exact hfin
    simp [LexObj.next, genNext, hfin, hfin₂, ObsRel, hne₁, hne₂, hb, hi, hf, hp]
  · have hfin₂ : ¬ l₂.gen.finished = true := by rw [hf]; exact hfin
    obtain ⟨ht, hbk, hne₁', hne₂', hi'⟩ :=
      getNextToken_obs l₁.gen.lexer l₂.gen.lexer hne₁ hne₂ hb hi
    simp only [LexObj.next, genNext, hfin, hfin₂, if_neg, Bool.false_eq_true,
      if_false, ObsRel]
    refine ⟨hp, hne₁', hne₂', hbk, hi', ?_, ?_⟩
    · rw [ht]
    · rw [ht]

theorem ObsRel_pushCurrent (l : LexObj) (h : l.gen.lexer.cursorStack ≠ []) :
    ObsRel l l.pushCurrent := by
  refine ⟨h, ?_, ?_, rfl, rfl, rfl⟩
  · simp [LexObj.pushCurrent, cloneAndPushCursor]
  · simp [LexObj.pushCurrent, cloneAndPushCursor, currentCursor, getLastD_concat]

theorem skipWhitespace_obs :
    ∀ (fuel : Nat) (flag : Bool) (l₁ l₂ : LexObj), ObsRel l₁ l₂ →
      (∃ e, skipWhitespace fuel l₁ flag = .error e ∧
        skipWhitespace fuel l₂ flag = .error e) ∨
      (∃ t l₁' l₂', skipWhitespace fuel l₁ flag = .ok (t, l₁') ∧
        skipWhitespace fuel l₂ flag = .ok (t, l₂') ∧ ObsRel l₁' l₂') := by
  intro fuel
  induction fuel with
  | zero =>
    intro flag l₁ l₂ _
    exact .inl ⟨.outOfFuel, rfl, rfl⟩
  | succ fuel ih =>
    intro flag l₁ l₂ h
    obtain ⟨ht, hrel⟩ := ObsRel_next l₁ l₂ h
    rw [skipWhitespace, skipWhitespace]
    rcases hn₁ : (l₁.next) with ⟨t₁, l₁'⟩
    rcases hn₂ : (l₂.next) with ⟨t₂, l₂'⟩
    have ht' : t₂ = t₁ := by rw [hn₁, hn₂] at ht; exact ht
    have hrel' : ObsRel l₁' l₂' := by
      have := hrel
      rw [hn₁, hn₂] at this
      exact this
    subst ht'
    simp only []
    rcases t₂ with _ | t
    · exact .inl ⟨.parseError "Unexpected end of script", rfl, rfl⟩
    · cases t with
      | whitespace txt => exact ih flag l₁' l₂' hrel'
      | newLine =>
        by_cases hf : flag = true
        · rw [if_pos hf, if_pos hf]
          exact ih flag l₁' l₂' hrel'
        · rw [if_neg hf, if_neg hf]
          exact .inr ⟨.newLine, l₁', l₂', rfl, rfl, hrel'⟩
      | word txt => exact .inr ⟨_, l₁', l₂', rfl, rfl, hrel'⟩
      | enclosedTextIndicator c => exact .inr ⟨_, l₁', l₂', rfl, rfl, hrel'⟩
      | specialCharacter c => exact .inr ⟨_, l₁', l₂', rfl, rfl, hrel'⟩
      | varTok nm => exact .inr ⟨_, l₁', l₂', rfl, rfl, hrel'⟩
      | scriptEnd => exact .inr ⟨_, l₁', l₂', rfl, rfl, hrel'⟩

/-- C9: a top-level statement beginning with a Variable token `$name`
parses to an `Assignment` or `AssignmentSelect` node if and only if the
next non-whitespace, non-newline token of the stream is the special
character `=`, `<` or `?`; otherwise it parses to a `Dialogue` node
whose text begins with the `Expression` child `$name`. -/
theorem parsePossibleAssignment_disambiguation
    (fuel : Nat) (l : LexObj) (name : String) (node : StatementNode)
    (l' : LexObj) (hne : l.gen.lexer.cursorStack ≠ [])
    (h : parsePossibleAssignment fuel l (.varTok name) = .ok (node, l')) :
    ∃ t l₂, skipWhitespace fuel l true = .ok (t, l₂) ∧
      (isAssignSpecial t = true →
        (∃ v p, node = .assignment name v p) ∨
        (∃ os, node = .assignmentSelect name os)) ∧
      (isAssignSpecial t = false →
        ∃ sp tn, node = .dialogue sp tn ∧
          tn.contents.head? = some (.expr name)) := by
  rw [parsePossibleAssignment.eq_def] at h
  simp only [] at h
  rcases hsw : skipWhitespace fuel l.pushCurrent true with e | ⟨nt, lp⟩ <;>
    rw [hsw] at h
  · simp at h
  · simp only [] at h
    rcases skipWhitespace_obs fuel true l l.pushCurrent
        (ObsRel_pushCurrent l hne) with
      ⟨e, _, h2⟩ | ⟨t, l₁', l₂', hok1, hok2, _⟩
    · rw [hsw] at h2
      exact absurd h2 (by simp)
    · rw [hsw] at hok2
      have hts : nt = t ∧ lp = l₂' := by
        have := hok2
        injection this with h1
        injection h1 with ha hb
        exact ⟨ha, hb⟩
      obtain ⟨htn, _⟩ := hts
      subst htn
      refine ⟨nt, l₁', hok1, ?_, ?_⟩
      · intro hsp
        have hcond : ¬((!(isAssignSpecial nt)) = true) := by simp [hsp]
        rw [if_neg hcond] at h
        rcases hnx : (LexObj.next (lp.shiftLast)) with ⟨tx, lx⟩
        rw [hnx] at h
        simp only [] at h
        rcases nt with _ | _ | _ | _ | c | _ | _ <;> simp [isAssignSpecial] at hsp
        simp only [] at h
        by_cases hq : c = '?'
        · rw [if_pos hq] at h
          rcases hsel : parseSelectLoop fuel [] lx with e | ⟨options, lr⟩ <;>
            rw [hsel] at h <;> simp at h
          exact .inr ⟨options, h.1.symm⟩
        · rw [if_neg hq] at h
          rcases hsw2 : skipWhitespace fuel lx false with e | ⟨tk, lk⟩ <;>
            rw [hsw2] at h <;> simp only [] at h
          · simp at h
          · rcases hptn : parseTextNode fuel lk tk with e | ⟨value, lv⟩ <;>
              rw [hptn] at h <;> simp at h
            exact .inl ⟨value, decide (c = '<'), h.1.symm⟩
      · intro hsp
        have hcond : (!(isAssignSpecial nt)) = true := by simp [hsp]
        rw [if_pos hcond] at h
        rcases hpd : parseDialogue fuel (lp.popCurrent) (.varTok name) with
          e | ⟨⟨sp, tn⟩, lr⟩ <;> rw [hpd] at h <;> simp at h
        obtain ⟨hspn, hhead⟩ :=
          parseDialogue_varTok fuel (lp.popCurrent) name sp tn lr hpd
        exact ⟨sp, tn, h.1.symm, hhead⟩

/-- Witness for `parsePossibleAssignment_disambiguation`: after lexing
`"$x = ok"` and consuming the `$x` token, the parser yields the
`Assignment` node `x := "ok"`, and the next non-whitespace token of the
stream is indeed the special character `=`. -/
theorem parsePossibleAssignment_disambiguation_witness :
    ∃ t l₂, skipWhitespace 50 ((lex "$x = ok").next).2 true = .ok (t, l₂) ∧
      (isAssignSpecial t = true →
        (∃ v p, (StatementNode.assignment "x" ⟨[.str "ok"], none⟩ false) =
          .assignment "x" v p) ∨
        (∃ os, (StatementNode.assignment "x" ⟨[.str "ok"], none⟩ false) =
          .assignmentSelect "x" os)) ∧
      (isAssignSpecial t = false →
        ∃ sp tn, (StatementNode.assignment "x" ⟨[.str "ok"], none⟩ false) =
          .dialogue sp tn ∧ tn.contents.head? = some (.expr "x")) :=
  parsePossibleAssignment_disambiguation 50 ((lex "$x = ok").next).2 "x"
    (.assignment "x" ⟨[.str "ok"], none⟩ false)
    ⟨⟨⟨"$x = ok".data, [⟨1, 8, 7⟩]⟩, true⟩, none, some .scriptEnd, []⟩
    (by decide) rfl

end DialogueEngine
